import Mathlib

/-!
Verification development for `mdl_reverse_engineer.c` (Quake MDL decompiler).

The program is shallowly embedded as follows.

* The input file is a `List Nat` of bytes together with a cursor; `RState`
  holds the not-yet-consumed suffix `rem` and the absolute offset `pos`
  (so `pos + rem.length` is the total file length, the value `ftell`
  returns after `fread` has consumed everything that was available).
* `SafeRead` models the C function of the same name (lines 66-71): `fread`
  returns the number of bytes actually read; on a short read the program
  calls `Error(...)` with the requested count, the bytes read, and the
  file position, and exits.  Every `Error` call site in the source is
  mapped to one constructor of `Err`.
* 32-bit machine integers are modelled as `Int` restricted through
  `toSigned32` (two's-complement reading of 4 little-endian bytes),
  matching `ReadLittleLong` (lines 96-100).
* IEEE-754 `float` values are kept abstract: `FloatOps F` packages the
  operations the program performs on floats (reinterpreting 4 stream
  bytes as a float, converting a byte to float, multiply, add, and the
  4-byte in-memory little-endian image used by `WriteBigFloat`).  All
  theorems are proved for every `FloatOps` instance, hence in particular
  for the real IEEE semantics; float equalities proved this way are exact
  bit-level equalities, not approximations.
* The frame loop (`for (int i = 0; i < header.numframes; )`, lines
  605-718) advances `i` by at least 1 per iteration, so it runs at most
  `numframes` iterations; `frameLoopGo` makes that measure explicit as a
  structural fuel argument, and `decode` supplies `numframes.toNat`
  fuel.  The `.outOfFuel` error is unreachable at that fuel (lemma
  `frameLoopGo_no_outOfFuel` below); it exists only so the recursion is
  structural and hence computable by the kernel.
* `malloc` failure (`Error("Failed to allocate ...")`) is a resource
  condition outside the byte-stream semantics and is not modelled; all
  theorems about the decoder assume the header counts are non-negative,
  which is exactly the regime in which the C allocations are well defined.
* Output files are recorded as `Output` values: the skin index / frame
  index / sub-frame index that the program interpolates into the file
  name (`sprintf("%s_skin%d.lbm", ...)`, `%s_frame%d.tri`,
  `%s_frame%d_sub%d.tri`), together with the exact bytes written.
* The 768-byte hardcoded Quake palette of `main` (lines 448-481) is an
  opaque configuration value per the specification's scope; `decode`
  takes it as a parameter and hands it unchanged to `WriteLBMfile`.
-/

namespace MdlRev

/-- Little-endian value of a byte list: `b[0] | b[1]<<8 | b[2]<<16 | ...`. -/
def leVal : List Nat → Nat
  | [] => 0
  | b :: rest => b + 256 * leVal rest

/-- Big-endian value of a byte list (used only to state theorems about
length fields written big-endian). -/
def beVal (l : List Nat) : Nat :=
  l.foldl (fun acc b => acc * 256 + b) 0

/-- Two's-complement reading of a 32-bit pattern as a signed C `int`. -/
def toSigned32 (n : Nat) : Int :=
  if n % 4294967296 < 2147483648 then ((n % 4294967296 : Nat) : Int)
  else ((n % 4294967296 : Nat) : Int) - 4294967296

/-- C conversion `(unsigned int)v` of a signed 32-bit value. -/
def toUnsigned32 (v : Int) : Nat :=
  (v % 4294967296).toNat

/-- The 4 little-endian bytes of a 32-bit integer, as they appear in an
MDL stream for the C `int` value `v`. -/
def le32 (v : Int) : List Nat :=
  [toUnsigned32 v % 256, toUnsigned32 v / 256 % 256,
   toUnsigned32 v / 65536 % 256, toUnsigned32 v / 16777216 % 256]

/-- `WriteBigShortToBuffer` (lines 126-129): 2 big-endian bytes. -/
def be16 (n : Nat) : List Nat :=
  [n / 256 % 256, n % 256]

/-- `WriteBigLongToBuffer` (lines 132-137): 4 big-endian bytes. -/
def be32 (n : Nat) : List Nat :=
  [n / 16777216 % 256, n / 65536 % 256, n / 256 % 256, n % 256]

/-- Abstract 32-bit float semantics.  `ofBytesLE` reinterprets 4 stream
bytes as a float (`ReadLittleFloat`'s union), `ofByte` is the C cast
`(float)byte`, `mul`/`add` are IEEE multiply and add, and `toBytesLE` is
the little-endian in-memory image of a float (what `WriteBigFloat`
byte-reverses before writing).  A C float always occupies 4 bytes, which
the last field records. -/
structure FloatOps (F : Type) where
  ofBytesLE : List Nat → F
  ofByte : Nat → F
  mul : F → F → F
  add : F → F → F
  toBytesLE : F → List Nat
  toBytesLE_length : ∀ x, (toBytesLE x).length = 4

/-- Reader state: remaining bytes and absolute cursor offset. -/
structure RState where
  rem : List Nat
  pos : Nat
deriving DecidableEq

/-- Every `Error(...)` call site of the source, as an error value.
`truncated` carries the requested byte count, the bytes actually read,
and the `ftell` value at the moment of the report (line 70).
`invalidFormat` carries the header ident and version (line 518).
`suspiciousCount` carries the group's declared sub-frame count
(line 665).  `unknownFrameType` carries the frame discriminator
(line 716).  `outOfFuel` is the embedding's unreachable fuel guard. -/
inductive Err where
  | truncated (expected : Int) (read : Nat) (pos : Nat)
  | invalidFormat (ident version : Int)
  | suspiciousCount (count : Int)
  | unknownFrameType (ftype : Int)
  | outOfFuel
deriving DecidableEq

/-- Sequencing of a read producing a value and a new state. -/
def step {α β : Type} (r : Except Err (α × RState)) (k : α → RState → Except Err β) :
    Except Err β :=
  match r with
  | .error e => .error e
  | .ok (a, st) => k a st

/-- `SafeRead` (lines 66-71).  `fread(buffer, 1, count, f)` consumes
`min` of the request and what remains (everything, for the huge `size_t`
a negative `count` converts to); on a short read the program reports the
requested count, the bytes read (`rem.length`), and `ftell` after the
partial read (`pos + rem.length`), and aborts. -/
def SafeRead (st : RState) (count : Int) : Except Err (List Nat × RState) :=
  if 0 ≤ count ∧ count ≤ (st.rem.length : Int) then
    .ok (st.rem.take count.toNat, ⟨st.rem.drop count.toNat, st.pos + count.toNat⟩)
  else
    .error (.truncated count st.rem.length (st.pos + st.rem.length))

/-- `ReadLittleLong` (lines 96-100): 4 bytes, little-endian, as signed int. -/
def ReadLittleLong (st : RState) : Except Err (Int × RState) :=
  step (SafeRead st 4) fun b st1 => .ok (toSigned32 (leVal b), st1)

/-- `ReadLittleFloat` (lines 119-123): 4 bytes reinterpreted as a float. -/
def ReadLittleFloat {F : Type} (ops : FloatOps F) (st : RState) :
    Except Err (F × RState) :=
  step (SafeRead st 4) fun b st1 => .ok (ops.ofBytesLE b, st1)

/-- ASCII "FORM". -/
def formTag : List Nat := [70, 79, 82, 77]

/-- ASCII "PBM " (the form type). -/
def pbmTag : List Nat := [80, 66, 77, 32]

/-- ASCII "BMHD". -/
def bmhdTag : List Nat := [66, 77, 72, 68]

/-- ASCII "CMAP". -/
def cmapTag : List Nat := [67, 77, 65, 80]

/-- ASCII "BODY". -/
def bodyTag : List Nat := [66, 79, 68, 89]

/-- `WriteLBMfile` (lines 296-380).  The C code writes the buffer
sequentially and back-patches each 4-byte big-endian length field with a
pointer difference; here each length is the length of the list written
for the corresponding region, which is the same number.  Chunk payloads
of odd length get one zero pad byte that is counted by the enclosing
FORM length but not by the chunk's own length field.  `(UWORD)width`
casts truncate to 16 bits; `memcpy(..., palette, 768)` and
`memcpy(..., data, width*height)` copy exactly that many bytes. -/
def WriteLBMfile (data : List Nat) (width height : Int) (palette : List Nat) :
    List Nat :=
  let w16 := (width % 65536).toNat
  let h16 := (height % 65536).toNat
  let wh := (width * height).toNat
  let bmhdPayload :=
    be16 w16 ++ be16 h16 ++ be16 0 ++ be16 0 ++
    [8, 0, 0, 0] ++ be16 0 ++ [5, 6] ++ be16 w16 ++ be16 h16
  let bmhdLen := bmhdPayload.length
  let cmapPayload := palette.take 768
  let cmapLen := cmapPayload.length
  let bodyPayload := data.take wh
  let bodyLen := bodyPayload.length
  let content :=
    pbmTag ++
    (bmhdTag ++ be32 bmhdLen ++ bmhdPayload ++
      (if bmhdLen % 2 = 1 then [0] else [])) ++
    (cmapTag ++ be32 cmapLen ++ cmapPayload ++
      (if cmapLen % 2 = 1 then [0] else [])) ++
    (bodyTag ++ be32 bodyLen ++ bodyPayload ++
      (if bodyLen % 2 = 1 then [0] else []))
  formTag ++ be32 content.length ++ content

/-- `IDTRIHEADER` (line 191). -/
def IDTRIHEADER : Nat := 123322

/-- `IDPOLYHEADER` (line 190): little-endian "IDPO". -/
def IDPOLYHEADER : Int := 1330660425

/-- `ALIAS_VERSION` (line 189). -/
def ALIAS_VERSION : Int := 6

/-- `WriteBigFloat` (lines 140-152): the float's 4 in-memory
little-endian bytes, written reversed. -/
def WriteBigFloatBytes (leBytes : List Nat) : List Nat :=
  leBytes.reverse

/-- In-memory little-endian bytes of the literal `0.0f`. -/
def floatZeroLE : List Nat := [0, 0, 0, 0]

/-- In-memory little-endian bytes of the literal `99999.0f`
(IEEE-754 single bit pattern 0x47C34F80). -/
def float99999LE : List Nat := [0x80, 0x4F, 0xC3, 0x47]

/-- In-memory little-endian bytes of the literal `-99999.0f`
(IEEE-754 single bit pattern 0xC7C34F80). -/
def floatNeg99999LE : List Nat := [0x80, 0x4F, 0xC3, 0xC7]

/-- Null-terminated `obj_name[] = "exported_object"` (line 396),
written with `sizeof` = 16 bytes. -/
def objName : List Nat :=
  [101, 120, 112, 111, 114, 116, 101, 100, 95, 111, 98, 106, 101, 99, 116, 0]

/-- Null-terminated `tex_name[] = "default_skin"` (line 405),
written with `sizeof` = 13 bytes. -/
def texName : List Nat :=
  [100, 101, 102, 97, 117, 108, 116, 95, 115, 107, 105, 110, 0]

/-- A `vec3_t`. -/
structure V3 (F : Type) where
  x : F
  y : F
  z : F

/-- Component access by axis index (0 = x, 1 = y, 2 = z). -/
def V3.axis {F : Type} (v : V3 F) (i : Fin 3) : F :=
  if i.val = 0 then v.x else if i.val = 1 then v.y else v.z

/-- `triangle_t` (lines 254-256): three reconstructed vertices. -/
structure TriT (F : Type) where
  a : V3 F
  b : V3 F
  c : V3 F

/-- Corner access by index (0, 1, 2 as in `verts[3]`). -/
def TriT.corner {F : Type} (t : TriT F) (j : Fin 3) : V3 F :=
  if j.val = 0 then t.a else if j.val = 1 then t.b else t.c

/-- One vertex record of the .tri file (lines 413-429): eleven
big-endian floats — zero normal, position, zero color, zero u/v. -/
def cornerRecord {F : Type} (ops : FloatOps F) (p : V3 F) : List Nat :=
  WriteBigFloatBytes floatZeroLE ++ WriteBigFloatBytes floatZeroLE ++
  WriteBigFloatBytes floatZeroLE ++
  WriteBigFloatBytes (ops.toBytesLE p.x) ++
  WriteBigFloatBytes (ops.toBytesLE p.y) ++
  WriteBigFloatBytes (ops.toBytesLE p.z) ++
  WriteBigFloatBytes floatZeroLE ++ WriteBigFloatBytes floatZeroLE ++
  WriteBigFloatBytes floatZeroLE ++
  WriteBigFloatBytes floatZeroLE ++ WriteBigFloatBytes floatZeroLE

/-- One triangle record: three vertex records (inner loop of line 412). -/
def triRecord {F : Type} (ops : FloatOps F) (t : TriT F) : List Nat :=
  cornerRecord ops t.a ++ cornerRecord ops t.b ++ cornerRecord ops t.c

/-- The triangle-writing loop `for (i = 0; i < num_triangles; i++)`
(lines 411-431), iterating the count down while consuming the array. -/
def triDataLoop {F : Type} (ops : FloatOps F) : List (TriT F) → Nat → List Nat
  | _, 0 => []
  | [], _ + 1 => []
  | t :: ts, n + 1 => triRecord ops t ++ triDataLoop ops ts n

/-- `WriteTriFile` (lines 384-440). -/
def WriteTriFile {F : Type} (ops : FloatOps F) (tris : List (TriT F))
    (numTriangles : Int) : List Nat :=
  be32 IDTRIHEADER ++
  WriteBigFloatBytes float99999LE ++
  objName ++
  be32 (toUnsigned32 numTriangles) ++
  texName ++
  triDataLoop ops tris numTriangles.toNat ++
  WriteBigFloatBytes floatNeg99999LE ++
  objName

/-- `trivertx_t` (lines 231-234): three packed coordinate bytes and a
light-normal index byte. -/
structure Trivertx where
  v0 : Nat
  v1 : Nat
  v2 : Nat
  lightnormalindex : Nat
deriving DecidableEq

/-- Packed coordinate by axis. -/
def Trivertx.vaxis (t : Trivertx) (i : Fin 3) : Nat :=
  if i.val = 0 then t.v0 else if i.val = 1 then t.v1 else t.v2

/-- `stvert_t` (lines 218-222). -/
structure StVert where
  onseam : Int
  s : Int
  t : Int
deriving DecidableEq

/-- `dtriangle_t` (lines 225-228). -/
structure DTriangle where
  facesfront : Int
  i0 : Int
  i1 : Int
  i2 : Int
deriving DecidableEq

/-- `vertindex[j]` access. -/
def DTriangle.vi (t : DTriangle) (j : Fin 3) : Int :=
  if j.val = 0 then t.i0 else if j.val = 1 then t.i1 else t.i2

/-- `mdl_header_t` (lines 199-215). -/
structure MdlHeader (F : Type) where
  ident : Int
  version : Int
  scale : V3 F
  scale_origin : V3 F
  boundingradius : F
  eyeposition : V3 F
  numskins : Int
  skinwidth : Int
  skinheight : Int
  numverts : Int
  numtris : Int
  numframes : Int
  synctype : Int
  flags : Int
  size : F

/-- Reinterpretation of a raw frame-vertex buffer as `trivertx_t[]`
(the `SafeRead(mdl_file, frame_verts_raw, numverts * 4)` of line 618). -/
def parseTrivertxList : List Nat → List Trivertx
  | b0 :: b1 :: b2 :: b3 :: rest => ⟨b0, b1, b2, b3⟩ :: parseTrivertxList rest
  | _ => []

/-- The per-vertex affine unpacking of lines 636-638:
`(float)raw.v[k] * scale[k] + scale_origin[k]` on each axis. -/
def unpackVertex {F : Type} (ops : FloatOps F) (scale origin : V3 F)
    (raw : Trivertx) : V3 F :=
  ⟨ops.add (ops.mul (ops.ofByte raw.v0) scale.x) origin.x,
   ops.add (ops.mul (ops.ofByte raw.v1) scale.y) origin.y,
   ops.add (ops.mul (ops.ofByte raw.v2) scale.z) origin.z⟩

/-- Reconstruction of one triangle (inner loops of lines 629-639):
`vert_index = triangles_indices[t].vertindex[v_idx]` selects the packed
vertex, which is then unpacked.  An out-of-range `vert_index` is
undefined behaviour in the C source (spec §9); the embedding returns a
zero vertex there, and every theorem about reconstruction restricts
itself to in-range indices. -/
def reconstructOne {F : Type} (ops : FloatOps F) (verts : List Trivertx)
    (scale origin : V3 F) (tri : DTriangle) : TriT F :=
  ⟨unpackVertex ops scale origin (verts.getD tri.i0.toNat ⟨0, 0, 0, 0⟩),
   unpackVertex ops scale origin (verts.getD tri.i1.toNat ⟨0, 0, 0, 0⟩),
   unpackVertex ops scale origin (verts.getD tri.i2.toNat ⟨0, 0, 0, 0⟩)⟩

/-- Reconstruction of a whole frame (`for (t = 0; t < numtris; t++)`),
one reconstructed triangle per triangle-index record. -/
def reconstructFrame {F : Type} (ops : FloatOps F) (tridx : List DTriangle)
    (verts : List Trivertx) (scale origin : V3 F) : List (TriT F) :=
  tridx.map (reconstructOne ops verts scale origin)

/-- One output file: the index data `sprintf` interpolates into its name,
and the bytes written to it. -/
inductive Output where
  | lbm (skinIndex : Nat) (bytes : List Nat)
  | tri (frameIndex : Int) (subIndex : Option Nat) (bytes : List Nat)
deriving DecidableEq

/-- Everything `main` has computed when it returns 0. -/
structure DecodeResult (F : Type) where
  header : MdlHeader F
  stVerts : List StVert
  triangleIdx : List DTriangle
  outputs : List Output
  finalFrame : Int

/-- Header reading and validation (lines 513-535): ident and version
first, the validation check, then the remaining fields in order. -/
def parseHeader {F : Type} (ops : FloatOps F) (st0 : RState) :
    Except Err (MdlHeader F × RState) :=
  step (ReadLittleLong st0) fun ident st => step (ReadLittleLong st) fun version st =>
  if ident ≠ IDPOLYHEADER ∨ version ≠ ALIAS_VERSION then
    .error (.invalidFormat ident version)
  else
  step (ReadLittleFloat ops st) fun s0 st => step (ReadLittleFloat ops st) fun s1 st =>
  step (ReadLittleFloat ops st) fun s2 st => step (ReadLittleFloat ops st) fun o0 st =>
  step (ReadLittleFloat ops st) fun o1 st => step (ReadLittleFloat ops st) fun o2 st =>
  step (ReadLittleFloat ops st) fun rad st => step (ReadLittleFloat ops st) fun e0 st =>
  step (ReadLittleFloat ops st) fun e1 st => step (ReadLittleFloat ops st) fun e2 st =>
  step (ReadLittleLong st) fun ns st => step (ReadLittleLong st) fun sw st =>
  step (ReadLittleLong st) fun sh st => step (ReadLittleLong st) fun nv st =>
  step (ReadLittleLong st) fun nt st => step (ReadLittleLong st) fun nf st =>
  step (ReadLittleLong st) fun syn st => step (ReadLittleLong st) fun fl st =>
  step (ReadLittleFloat ops st) fun sz st =>
  .ok (⟨ident, version, ⟨s0, s1, s2⟩, ⟨o0, o1, o2⟩, rad, ⟨e0, e1, e2⟩,
        ns, sw, sh, nv, nt, nf, syn, fl, sz⟩, st)

/-- Skin extraction loop (lines 549-567): per skin, one discriminator
int (read and discarded) then `skinwidth * skinheight` raw pixel bytes,
handed to `WriteLBMfile`. -/
def skinLoop (palette : List Nat) (w h : Int) :
    Nat → Nat → RState → Except Err (List Output × RState)
  | 0, _, st => .ok ([], st)
  | k + 1, idx, st =>
    step (ReadLittleLong st) fun _skinType st1 =>
    step (SafeRead st1 (w * h)) fun pixels st2 =>
    step (skinLoop palette w h k (idx + 1) st2) fun outs st3 =>
    .ok (Output.lbm idx (WriteLBMfile pixels w h palette) :: outs, st3)

/-- ST-vertex loop (lines 578-582): three ints per vertex. -/
def stvertLoop : Nat → RState → Except Err (List StVert × RState)
  | 0, st => .ok ([], st)
  | k + 1, st =>
    step (ReadLittleLong st) fun onseam st1 =>
    step (ReadLittleLong st1) fun s st2 =>
    step (ReadLittleLong st2) fun t st3 =>
    step (stvertLoop k st3) fun vs st4 =>
    .ok (⟨onseam, s, t⟩ :: vs, st4)

/-- Triangle-index loop (lines 592-597): four ints per triangle. -/
def triIdxLoop : Nat → RState → Except Err (List DTriangle × RState)
  | 0, st => .ok ([], st)
  | k + 1, st =>
    step (ReadLittleLong st) fun ff st1 =>
    step (ReadLittleLong st1) fun v0 st2 =>
    step (ReadLittleLong st2) fun v1 st3 =>
    step (ReadLittleLong st3) fun v2 st4 =>
    step (triIdxLoop k st4) fun ts st5 =>
    .ok (⟨ff, v0, v1, v2⟩ :: ts, st5)

/-- One single frame (lines 610-649 and, for group members, 677-709):
a 24-byte `daliasframe_t`, then `numverts * sizeof(trivertx_t)` vertex
bytes, reconstruction, and one .tri file. -/
def readSingleFrame {F : Type} (ops : FloatOps F) (numverts numtris : Int)
    (tridx : List DTriangle) (scale origin : V3 F) (i : Int) (sub : Option Nat)
    (st : RState) : Except Err (Output × RState) :=
  step (SafeRead st 24) fun _frameInfo st1 =>
  step (SafeRead st1 (numverts * 4)) fun vertBytes st2 =>
  .ok (Output.tri i sub
        (WriteTriFile ops
          (reconstructFrame ops tridx (parseTrivertxList vertBytes) scale origin)
          numtris), st2)

/-- Interval-skipping loop of a frame group (lines 670-672). -/
def readIntervals {F : Type} (ops : FloatOps F) :
    Nat → RState → Except Err RState
  | 0, st => .ok st
  | k + 1, st =>
    step (ReadLittleFloat ops st) fun _interval st1 => readIntervals ops k st1

/-- Per-sub-frame loop of a frame group (lines 676-713): each sub-frame
is a plain single frame, output index `(i, j)`. -/
def subFrameLoop {F : Type} (ops : FloatOps F) (numverts numtris : Int)
    (tridx : List DTriangle) (scale origin : V3 F) (i : Int) :
    Nat → Nat → RState → Except Err (List Output × RState)
  | 0, _, st => .ok ([], st)
  | k + 1, j, st =>
    step (readSingleFrame ops numverts numtris tridx scale origin i (some j) st)
      fun out st1 =>
    step (subFrameLoop ops numverts numtris tridx scale origin i k (j + 1) st1)
      fun outs st2 =>
    .ok (out :: outs, st2)

/-- The frame loop (lines 605-718).  `i` advances by 1 for a single
frame and by `1 + count` for a group; the loop runs while
`i < numframes`.  The structural `fuel` argument bounds the number of
iterations (each iteration advances `i` by at least 1, so
`numframes.toNat` fuel always suffices; see `frameLoopGo_no_outOfFuel`).
Returns the outputs, the final reader state, and the final value of `i`. -/
def frameLoopGo {F : Type} (ops : FloatOps F) (hdr : MdlHeader F)
    (tridx : List DTriangle) :
    Nat → RState → Int → Except Err (List Output × RState × Int)
  | 0, st, i =>
    if i < hdr.numframes then .error .outOfFuel else .ok ([], st, i)
  | fuel + 1, st, i =>
    if i < hdr.numframes then
      step (ReadLittleLong st) fun ftype st1 =>
      if ftype = 0 then
        step (readSingleFrame ops hdr.numverts hdr.numtris tridx hdr.scale
              hdr.scale_origin i none st1) fun out st2 =>
        match frameLoopGo ops hdr tridx fuel st2 (i + 1) with
        | .error e => .error e
        | .ok (outs, st3, fin) => .ok (out :: outs, st3, fin)
      else if ftype = 1 then
        step (SafeRead st1 12) fun groupBytes st2 =>
        let c := toSigned32 (leVal (groupBytes.take 4))
        if c ≤ 0 ∨ 10000 < c then
          .error (.suspiciousCount c)
        else
          match readIntervals ops c.toNat st2 with
          | .error e => .error e
          | .ok st3 =>
            step (subFrameLoop ops hdr.numverts hdr.numtris tridx hdr.scale
                  hdr.scale_origin i c.toNat 0 st3) fun outs1 st4 =>
            match frameLoopGo ops hdr tridx fuel st4 (i + (1 + c)) with
            | .error e => .error e
            | .ok (outs2, st5, fin) => .ok (outs1 ++ outs2, st5, fin)
      else
        .error (.unknownFrameType ftype)
    else
      .ok ([], st, i)

/-- The whole decode session of `main` (lines 510-727): header, skins,
ST vertices, triangle indices, frames. -/
def decode {F : Type} (ops : FloatOps F) (palette : List Nat)
    (input : List Nat) : Except Err (DecodeResult F) :=
  step (parseHeader ops ⟨input, 0⟩) fun hdr st1 =>
  step (skinLoop palette hdr.skinwidth hdr.skinheight hdr.numskins.toNat 0 st1)
    fun skinOutputs st2 =>
  step (stvertLoop hdr.numverts.toNat st2) fun sts st3 =>
  step (triIdxLoop hdr.numtris.toNat st3) fun tridx st4 =>
  match frameLoopGo ops hdr tridx hdr.numframes.toNat st4 0 with
  | .error e => .error e
  | .ok (frameOutputs, _st5, fin) =>
    .ok ⟨hdr, sts, tridx, skinOutputs ++ frameOutputs, fin⟩

/-- A degenerate float semantics (all floats identified); used to
evaluate the decoder on concrete byte inputs, where no theorem depends
on float values. -/
def unitOps : FloatOps Unit :=
  ⟨fun _ => (), fun _ => (), fun _ _ => (), fun _ _ => (),
   fun _ => [0, 0, 0, 0], fun _ => rfl⟩

/-- An exact integer float semantics (byte-to-float conversion is exact
and `*`/`+` are exact on these small values); used to witness the
reconstruction transform on concrete data. -/
def intOps : FloatOps Int :=
  ⟨fun b => (leVal b : Int), fun b => (b : Int), fun a b => a * b,
   fun a b => a + b, fun _ => [0, 0, 0, 0], fun _ => rfl⟩

/-- A well-formed 84-byte MDL header: correct magic and version, the ten
leading float fields and the trailing synctype/flags/size fields as raw
4-byte groups, and the six counts as little-endian ints. -/
def mkHeaderBytes (s0 s1 s2 o0 o1 o2 rad e0 e1 e2 : List Nat)
    (ns sw sh nv nt nf : Int) (syn4 fl4 sizeB : List Nat) : List Nat :=
  le32 IDPOLYHEADER ++ le32 ALIAS_VERSION ++ s0 ++ s1 ++ s2 ++ o0 ++ o1 ++ o2 ++
  rad ++ e0 ++ e1 ++ e2 ++ le32 ns ++ le32 sw ++ le32 sh ++ le32 nv ++ le32 nt ++
  le32 nf ++ syn4 ++ fl4 ++ sizeB

/-- The skin section of an input: per skin, 4 discriminator bytes
followed by the pixel bytes. -/
def skinSection : List (List Nat) → List (List Nat) → List Nat
  | t :: ts, p :: ps => t ++ p ++ skinSection ts ps
  | _, _ => []

/-- The raster outputs the skin loop produces for given pixel buffers. -/
def skinOuts (palette : List Nat) (w h : Int) :
    List (List Nat) → Nat → List Output
  | [], _ => []
  | p :: ps, idx =>
    Output.lbm idx (WriteLBMfile p w h palette) :: skinOuts palette w h ps (idx + 1)

/-- The result is not a header-validation failure. -/
def notInvalid {α : Type} (r : Except Err α) : Prop :=
  ∀ a b, r ≠ .error (.invalidFormat a b)

/-- Every error this result can produce is a short-read report:
the only `Error` call a plain field read can reach is `SafeRead`'s. -/
def truncOnly {α : Type} (r : Except Err α) : Prop :=
  ∀ e, r = .error e → ∃ x y z, e = .truncated x y z

/-- Four zero bytes (a zero float field / zero int field). -/
def z4 : List Nat := [0, 0, 0, 0]

/-- A header declaring 0 skins/verts/tris and 2 frames, as `parseHeader`
produces it from `cex2Input` below. -/
def cexHdr : MdlHeader Unit :=
  ⟨IDPOLYHEADER, ALIAS_VERSION, ⟨(), (), ()⟩, ⟨(), (), ()⟩, (), ⟨(), (), ()⟩,
   0, 0, 0, 0, 0, 2, 0, 0, ()⟩

/-- A frame section holding one group entry with 2 sub-frames: the
discriminator 1, a 12-byte `daliasgroup_t` whose count field is 2, two
4-byte interval floats, and two 24-byte `daliasframe_t` records (the
header declares 0 vertices, so sub-frames carry no vertex bytes). -/
def cexFrameBytes : List Nat :=
  le32 1 ++ le32 2 ++ List.replicate 8 0 ++ List.replicate 8 0 ++
  List.replicate 24 0 ++ List.replicate 24 0

/-- A complete 156-byte input: the `cexHdr` header (numframes = 2)
followed by `cexFrameBytes` (one group advancing the frame counter by
1 + 2 = 3). -/
def cex2Input : List Nat :=
  mkHeaderBytes z4 z4 z4 z4 z4 z4 z4 z4 z4 z4 0 0 0 0 0 2 z4 z4 z4 ++
  cexFrameBytes

/-- The header value `parseHeader` reconstructs from `mkHeaderBytes`. -/
def mkHdr {F : Type} (ops : FloatOps F)
    (s0 s1 s2 o0 o1 o2 rad e0 e1 e2 : List Nat) (ns sw sh nv nt nf : Int)
    (syn4 fl4 sizeB : List Nat) : MdlHeader F :=
  ⟨IDPOLYHEADER, ALIAS_VERSION,
   ⟨ops.ofBytesLE s0, ops.ofBytesLE s1, ops.ofBytesLE s2⟩,
   ⟨ops.ofBytesLE o0, ops.ofBytesLE o1, ops.ofBytesLE o2⟩,
   ops.ofBytesLE rad,
   ⟨ops.ofBytesLE e0, ops.ofBytesLE e1, ops.ofBytesLE e2⟩,
   ns, sw, sh, nv, nt, nf,
   toSigned32 (leVal syn4), toSigned32 (leVal fl4), ops.ofBytesLE sizeB⟩

theorem step_ok {α β : Type} (a : α) (st : RState) (k : α → RState → Except Err β) :
    step (.ok (a, st)) k = k a st := rfl

theorem step_error {α β : Type} (e : Err) (k : α → RState → Except Err β) :
    step (.error e) k = .error e := rfl

theorem take_chunk {α : Type} (A B : List α) (n : Nat) (h : A.length = n) :
    (A ++ B).take n = A :=
  List.take_left' h

theorem drop_chunk {α : Type} (A B : List α) (n : Nat) (h : A.length = n) :
    (A ++ B).drop n = B :=
  List.drop_left' h

theorem drop_chunk_add {α : Type} (A B : List α) (n m : Nat) (h : A.length = n) :
    (A ++ B).drop (n + m) = B.drop m := by
  subst h
  exact List.drop_append m

theorem getD_of_lt {α : Type} :
    ∀ (l : List α) (n : Nat) (d : α) (h : n < l.length), l.getD n d = l.get ⟨n, h⟩
  | _ :: _, 0, _, _ => rfl
  | _ :: l, n + 1, d, h => getD_of_lt l n d (by simpa using h)

theorem SafeRead_ok (st : RState) (c : Int) (hc : 0 ≤ c)
    (h : c ≤ (st.rem.length : Int)) :
    SafeRead st c =
      .ok (st.rem.take c.toNat, ⟨st.rem.drop c.toNat, st.pos + c.toNat⟩) := by
  rw [SafeRead, if_pos ⟨hc, h⟩]

theorem SafeRead_append (A B : List Nat) (p : Nat) (c : Int) (hc : 0 ≤ c)
    (h : A.length = c.toNat) :
    SafeRead ⟨A ++ B, p⟩ c = .ok (A, ⟨B, p + c.toNat⟩) := by
  rw [SafeRead_ok ⟨A ++ B, p⟩ c hc (by simp [List.length_append]; omega)]
  rw [take_chunk A B c.toNat h, drop_chunk A B c.toNat h]

theorem ReadLittleLong_ok (st : RState) (h : 4 ≤ st.rem.length) :
    ReadLittleLong st =
      .ok (toSigned32 (leVal (st.rem.take 4)), ⟨st.rem.drop 4, st.pos + 4⟩) := by
  rw [ReadLittleLong, SafeRead_ok st 4 (by omega) (by exact_mod_cast h)]
  rfl

theorem ReadLittleLong_append (A B : List Nat) (p : Nat) (h : A.length = 4) :
    ReadLittleLong ⟨A ++ B, p⟩ = .ok (toSigned32 (leVal A), ⟨B, p + 4⟩) := by
  rw [ReadLittleLong, SafeRead_append A B p 4 (by omega) h]
  rfl

theorem ReadLittleFloat_append {F : Type} (ops : FloatOps F) (A B : List Nat)
    (p : Nat) (h : A.length = 4) :
    ReadLittleFloat ops ⟨A ++ B, p⟩ = .ok (ops.ofBytesLE A, ⟨B, p + 4⟩) := by
  rw [ReadLittleFloat, SafeRead_append A B p 4 (by omega) h]
  rfl

theorem le32_length (v : Int) : (le32 v).length = 4 := rfl

theorem toSigned32_le32 (v : Int) (h1 : -2147483648 ≤ v) (h2 : v < 2147483648) :
    toSigned32 (leVal (le32 v)) = v := by
  have h3 : 0 ≤ v % 4294967296 := Int.emod_nonneg v (by decide)
  have h4 : v % 4294967296 < 4294967296 := Int.emod_lt_of_pos v (by decide)
  simp only [le32, leVal, toUnsigned32, toSigned32]
  omega

theorem ReadLittleLong_le32 (v : Int) (B : List Nat) (p : Nat)
    (h1 : -2147483648 ≤ v) (h2 : v < 2147483648) :
    ReadLittleLong ⟨le32 v ++ B, p⟩ = .ok (v, ⟨B, p + 4⟩) := by
  rw [ReadLittleLong_append (le32 v) B p (le32_length v), toSigned32_le32 v h1 h2]

/-- Claim C7: if fewer bytes remain than a fixed-size field requires,
`SafeRead` fails with the truncation condition carrying the requested
size, the bytes actually available (`rem.length`, which `fread`
consumed), and the cursor offset at the moment of the report
(`pos + rem.length`, the `ftell` value after the partial read); since
the result is an `Except` error, no value is produced and the whole
decode session aborts through `step`. -/
theorem safeRead_truncated_report (st : RState) (count : Int) (h0 : 0 ≤ count)
    (h : (st.rem.length : Int) < count) :
    SafeRead st count =
      .error (.truncated count st.rem.length (st.pos + st.rem.length)) := by
  rw [SafeRead, if_neg]
  omega

theorem safeRead_truncated_report_witness :
    SafeRead ⟨[1, 2, 3], 5⟩ 4 = .error (.truncated 4 3 8) :=
  safeRead_truncated_report ⟨[1, 2, 3], 5⟩ 4 (by decide) (by decide)

/-- Claim C1: every reconstructed coordinate equals the packed vertex
byte — selected from the frame's vertex array through the
triangle-index table — multiplied by the per-axis scale and offset by
the per-axis scale origin.  The statement is proved for every float
semantics `ops`, in particular for exact IEEE-754 arithmetic, so the
equality is exact float equality, not an approximation. -/
theorem reconstruct_vertex_affine_exact {F : Type} (ops : FloatOps F)
    (tridx : List DTriangle) (verts : List Trivertx) (scale origin : V3 F)
    (t : Nat) (j axis : Fin 3) (d : TriT F) (ht : t < tridx.length)
    (hidx : ((tridx.get ⟨t, ht⟩).vi j).toNat < verts.length) :
    (((reconstructFrame ops tridx verts scale origin).getD t d).corner j).axis
        axis =
      ops.add
        (ops.mul
          (ops.ofByte
            ((verts.get ⟨((tridx.get ⟨t, ht⟩).vi j).toNat, hidx⟩).vaxis axis))
          (scale.axis axis))
        (origin.axis axis) := by
  have hlen : t < (reconstructFrame ops tridx verts scale origin).length := by
    simpa [reconstructFrame] using ht
  rw [getD_of_lt _ t d hlen]
  have hmap : (reconstructFrame ops tridx verts scale origin).get ⟨t, hlen⟩ =
      reconstructOne ops verts scale origin (tridx.get ⟨t, ht⟩) := by
    simp [reconstructFrame, List.get_eq_getElem, List.getElem_map]
  rw [hmap, ← getD_of_lt verts _ ⟨0, 0, 0, 0⟩ hidx]
  fin_cases j <;> fin_cases axis <;>
    simp [reconstructOne, unpackVertex, TriT.corner, V3.axis, DTriangle.vi,
      Trivertx.vaxis]

theorem reconstruct_vertex_affine_exact_witness :
    (((reconstructFrame intOps [⟨0, 1, 0, 0⟩] [⟨10, 20, 30, 0⟩, ⟨1, 2, 3, 4⟩]
        ⟨2, 3, 4⟩ ⟨5, 6, 7⟩).getD 0 ⟨⟨0, 0, 0⟩, ⟨0, 0, 0⟩, ⟨0, 0, 0⟩⟩).corner
        0).axis 0 = 7 := by
  have h := reconstruct_vertex_affine_exact intOps [⟨0, 1, 0, 0⟩]
    [⟨10, 20, 30, 0⟩, ⟨1, 2, 3, 4⟩] ⟨2, 3, 4⟩ ⟨5, 6, 7⟩ 0 0 0
    ⟨⟨0, 0, 0⟩, ⟨0, 0, 0⟩, ⟨0, 0, 0⟩⟩ (by decide) (by decide)
  exact h.trans (by decide)

theorem cornerRecord_length {F : Type} (ops : FloatOps F) (p : V3 F) :
    (cornerRecord ops p).length = 44 := by
  simp [cornerRecord, WriteBigFloatBytes, floatZeroLE, ops.toBytesLE_length]

theorem triRecord_length {F : Type} (ops : FloatOps F) (t : TriT F) :
    (triRecord ops t).length = 132 := by
  simp [triRecord, cornerRecord_length]

theorem triDataLoop_eq_join {F : Type} (ops : FloatOps F) :
    ∀ tris : List (TriT F),
      triDataLoop ops tris tris.length = (tris.map (triRecord ops)).join
  | [] => rfl
  | t :: ts => by
    simp only [List.length_cons, triDataLoop, List.map_cons, List.join_cons]
    rw [triDataLoop_eq_join ops ts]

theorem join_triRecords_length {F : Type} (ops : FloatOps F)
    (tris : List (TriT F)) :
    ((tris.map (triRecord ops)).join).length = 132 * tris.length := by
  induction tris with
  | nil => rfl
  | cons t ts ih =>
    simp only [List.map_cons, List.join_cons, List.length_append, ih,
      triRecord_length, List.length_cons]
    omega

/-- Claim C4: the mesh file is exactly the big-endian magic, the
big-endian start-sentinel float, the null-terminated object name, the
big-endian triangle count, the null-terminated texture name, one
132-byte record per triangle (eleven big-endian floats per corner: zero
normal, position, zero color, zero u/v — `cornerRecord`/`triRecord`),
the big-endian closing-sentinel float, the object name again, and
nothing else; its total length is 61 + 132 * count. -/
theorem writeTriFile_layout {F : Type} (ops : FloatOps F) (tris : List (TriT F))
    (n : Int) (h : tris.length = n.toNat) :
    WriteTriFile ops tris n =
      be32 IDTRIHEADER ++ WriteBigFloatBytes float99999LE ++ objName ++
        be32 (toUnsigned32 n) ++ texName ++ (tris.map (triRecord ops)).join ++
        WriteBigFloatBytes floatNeg99999LE ++ objName ∧
    (∀ r ∈ tris.map (triRecord ops), r.length = 132) ∧
    (WriteTriFile ops tris n).length = 61 + 132 * tris.length := by
  have hdata : triDataLoop ops tris n.toNat = (tris.map (triRecord ops)).join := by
    rw [← h]
    exact triDataLoop_eq_join ops tris
  refine ⟨by rw [WriteTriFile, hdata], ?_, ?_⟩
  · intro r hr
    simp only [List.mem_map] at hr
    obtain ⟨t, _, rfl⟩ := hr
    exact triRecord_length ops t
  · rw [WriteTriFile, hdata]
    simp only [List.length_append, join_triRecords_length, be32, objName,
      texName, WriteBigFloatBytes, float99999LE, floatNeg99999LE,
      List.length_reverse, List.length_cons, List.length_nil]
    omega

theorem writeTriFile_layout_witness :
    (WriteTriFile unitOps [⟨⟨(), (), ()⟩, ⟨(), (), ()⟩, ⟨(), (), ()⟩⟩]
      1).length = 61 + 132 * 1 := by
  have h := writeTriFile_layout unitOps
    [⟨⟨(), (), ()⟩, ⟨(), (), ()⟩, ⟨(), (), ()⟩⟩] 1 (by decide)
  exact h.2.2.trans (by decide)

/-- Shape of the raster container `WriteLBMfile` emits for a full
768-byte palette and a `width*height` pixel buffer: FORM tag, the FORM
length field (4 for the "PBM " form type, plus the BMHD chunk's 28
bytes, the CMAP chunk's 776 bytes, and the BODY chunk's 8 + wh bytes
plus one pad byte when wh is odd), then the form type and the three
chunks. -/
theorem WriteLBMfile_eq (data : List Nat) (w h : Int) (pal : List Nat)
    (hpal : pal.length = 768) (hdata : data.length = (w * h).toNat) :
    WriteLBMfile data w h pal =
      formTag ++
      be32 (816 + ((w * h).toNat + (w * h).toNat % 2)) ++
      pbmTag ++ bmhdTag ++ be32 20 ++
      (be16 ((w % 65536).toNat) ++ be16 ((h % 65536).toNat) ++ be16 0 ++
        be16 0 ++ [8, 0, 0, 0] ++ be16 0 ++ [5, 6] ++
        be16 ((w % 65536).toNat) ++ be16 ((h % 65536).toNat)) ++
      cmapTag ++ be32 768 ++ pal ++
      bodyTag ++ be32 ((w * h).toNat) ++ data ++
      (if (w * h).toNat % 2 = 1 then [0] else []) := by
  have hp : pal.take 768 = pal := by
    rw [← hpal]
    exact List.take_length pal
  have hd : data.take ((w * h).toNat) = data := by
    rw [← hdata]
    exact List.take_length data
  simp only [WriteLBMfile, hp, hd, hpal, hdata, be16, List.length_append,
    List.length_cons, List.length_nil]
  norm_num
  have hpad : ((if (w * h).toNat % 2 = 1 then [0] else [] : List Nat)).length =
      (w * h).toNat % 2 := by
    split
    · simp only [List.length_cons, List.length_nil]
      omega
    · simp only [List.length_nil]
      omega
  congr 1
  simp only [pbmTag, bmhdTag, cmapTag, bodyTag, be32, List.length_cons,
    List.length_nil, hpad]
  omega

/-- Claim C5: in the emitted raster file the CMAP chunk's payload (at
byte offset 48, after the 12-byte FORM header, the 28-byte BMHD chunk
and the 8-byte CMAP chunk header) is the supplied 768-byte palette
verbatim, and the BODY chunk's payload (at byte offset 824) is the
skin's width*height pixel bytes verbatim, one byte per pixel in the
order they were read (row-major). -/
theorem writeLBM_cmap_body_verbatim (data : List Nat) (w h : Int)
    (pal : List Nat) (hpal : pal.length = 768)
    (hdata : data.length = (w * h).toNat) :
    ((WriteLBMfile data w h pal).drop 48).take 768 = pal ∧
    ((WriteLBMfile data w h pal).drop 824).take ((w * h).toNat) = data := by
  have hsplit : WriteLBMfile data w h pal =
      (formTag ++ be32 (816 + ((w * h).toNat + (w * h).toNat % 2)) ++
        pbmTag ++ bmhdTag ++ be32 20 ++
        (be16 ((w % 65536).toNat) ++ be16 ((h % 65536).toNat) ++ be16 0 ++
          be16 0 ++ [8, 0, 0, 0] ++ be16 0 ++ [5, 6] ++
          be16 ((w % 65536).toNat) ++ be16 ((h % 65536).toNat)) ++
        cmapTag ++ be32 768) ++
      (pal ++ (bodyTag ++ be32 ((w * h).toNat) ++ data ++
        (if (w * h).toNat % 2 = 1 then [0] else []))) := by
    rw [WriteLBMfile_eq data w h pal hpal hdata]
    simp only [List.append_assoc]
  have hsplit2 : WriteLBMfile data w h pal =
      (formTag ++ be32 (816 + ((w * h).toNat + (w * h).toNat % 2)) ++
        pbmTag ++ bmhdTag ++ be32 20 ++
        (be16 ((w % 65536).toNat) ++ be16 ((h % 65536).toNat) ++ be16 0 ++
          be16 0 ++ [8, 0, 0, 0] ++ be16 0 ++ [5, 6] ++
          be16 ((w % 65536).toNat) ++ be16 ((h % 65536).toNat)) ++
        cmapTag ++ be32 768 ++ pal ++ bodyTag ++ be32 ((w * h).toNat)) ++
      (data ++ (if (w * h).toNat % 2 = 1 then [0] else [])) := by
    rw [WriteLBMfile_eq data w h pal hpal hdata]
    simp only [List.append_assoc]
  constructor
  · rw [hsplit, drop_chunk _ _ 48
      (by simp [formTag, pbmTag, bmhdTag, cmapTag, be32, be16])]
    exact take_chunk pal _ 768 hpal
  · rw [hsplit2, drop_chunk _ _ 824
      (by simp [formTag, pbmTag, bmhdTag, cmapTag, bodyTag, be32, be16, hpal])]
    exact take_chunk data _ ((w * h).toNat) hdata

set_option maxRecDepth 20000 in
theorem writeLBM_cmap_body_verbatim_witness :
    ((WriteLBMfile (List.replicate 16 7) 4 4 (List.replicate 768 9)).drop
        48).take 768 = List.replicate 768 9 :=
  (writeLBM_cmap_body_verbatim (List.replicate 16 7) 4 4 (List.replicate 768 9)
    (by simp) (by decide)).1

/-- Claim C3 (amended): the FORM chunk's big-endian length field equals
4 — the "PBM " form-type sub-tag, which the FORM length also covers —
plus the sum of the three nested chunks' total on-disk sizes (each
counted as tag + length field + padded payload: 28 for BMHD, 776 for
CMAP, 8 + width*height + pad for BODY). -/
theorem form_length_field_amended (data : List Nat) (w h : Int)
    (pal : List Nat) (hpal : pal.length = 768)
    (hdata : data.length = (w * h).toNat) :
    ((WriteLBMfile data w h pal).drop 4).take 4 =
      be32 (4 + ((4 + 4 + 20) + ((4 + 4 + 768) +
        ((4 + 4 + (w * h).toNat) + (w * h).toNat % 2)))) := by
  rw [WriteLBMfile_eq data w h pal hpal hdata]
  simp only [List.append_assoc]
  rw [drop_chunk formTag _ 4 (by simp [formTag])]
  rw [take_chunk _ _ 4 (by simp [be32])]
  congr 1
  omega

set_option maxRecDepth 20000 in
theorem form_length_field_amended_witness :
    ((WriteLBMfile (List.replicate 16 7) 4 4 (List.replicate 768 0)).drop
        4).take 4 =
      be32 (4 + ((4 + 4 + 20) + ((4 + 4 + 768) +
        ((4 + 4 + ((4 : Int) * 4).toNat) + ((4 : Int) * 4).toNat % 2)))) :=
  form_length_field_amended (List.replicate 16 7) 4 4 (List.replicate 768 0)
    (by simp) (by decide)

set_option maxRecDepth 20000 in
/-- Claim C3 counterexample: for a concrete 4x4 skin the FORM length
field decodes to 832, not 828 = (4+4+20) + ((4+4+768) + (4+4+16)), the
sum of the BMHD, CMAP and BODY chunks' on-disk sizes (tag + length
field + payload; every payload here has even length, so no padding).
The field additionally counts the 4-byte "PBM " form type, so the claim
as stated is false on the code. -/
theorem form_length_field_cex :
    beVal (((WriteLBMfile (List.replicate 16 7) 4 4
        (List.replicate 768 0)).drop 4).take 4) = 832 ∧
    832 ≠ (4 + 4 + 20) + ((4 + 4 + 768) + (4 + 4 + 16)) := by
  decide

theorem frameLoopGo_fin_bound {F : Type} (ops : FloatOps F) (hdr : MdlHeader F)
    (tridx : List DTriangle) :
    ∀ (fuel : Nat) (st : RState) (i : Int) (outs : List Output) (st2 : RState)
      (fin : Int),
      frameLoopGo ops hdr tridx fuel st i = .ok (outs, st2, fin) →
      i ≤ fin ∧ hdr.numframes ≤ fin := by
  intro fuel
  induction fuel with
  | zero =>
    intro st i outs st2 fin hr
    rw [frameLoopGo] at hr
    by_cases hi : i < hdr.numframes
    · rw [if_pos hi] at hr
      exact absurd hr (by simp)
    · rw [if_neg hi] at hr
      simp only [Except.ok.injEq, Prod.mk.injEq] at hr
      omega
  | succ fuel ih =>
    intro st i outs st2 fin hr
    rw [frameLoopGo] at hr
    by_cases hi : i < hdr.numframes
    · rw [if_pos hi] at hr
      cases hrl : ReadLittleLong st with
      | error e =>
        rw [hrl, step_error] at hr
        exact absurd hr (by simp)
      | ok p =>
        obtain ⟨ftype, st1⟩ := p
        rw [hrl, step_ok] at hr
        by_cases h0 : ftype = 0
        · rw [if_pos h0] at hr
          cases hsf : readSingleFrame ops hdr.numverts hdr.numtris tridx
              hdr.scale hdr.scale_origin i none st1 with
          | error e =>
            rw [hsf, step_error] at hr
            exact absurd hr (by simp)
          | ok q =>
            obtain ⟨out, st2a⟩ := q
            rw [hsf, step_ok] at hr
            cases hrec : frameLoopGo ops hdr tridx fuel st2a (i + 1) with
            | error e =>
              rw [hrec] at hr
              exact absurd hr (by simp)
            | ok r =>
              obtain ⟨outs2, st3, fin2⟩ := r
              rw [hrec] at hr
              simp only [Except.ok.injEq, Prod.mk.injEq] at hr
              have hb := ih st2a (i + 1) outs2 st3 fin2 hrec
              omega
        · by_cases h1 : ftype = 1
          · rw [if_neg h0, if_pos h1] at hr
            cases hg : SafeRead st1 12 with
            | error e =>
              rw [hg, step_error] at hr
              exact absurd hr (by simp)
            | ok q =>
              obtain ⟨g, st2a⟩ := q
              rw [hg, step_ok] at hr
              simp only [] at hr
              by_cases hc : toSigned32 (leVal (g.take 4)) ≤ 0 ∨
                  10000 < toSigned32 (leVal (g.take 4))
              · rw [if_pos hc] at hr
                exact absurd hr (by simp)
              · rw [if_neg hc] at hr
                cases hint : readIntervals ops
                    (toSigned32 (leVal (g.take 4))).toNat st2a with
                | error e =>
                  rw [hint] at hr
                  exact absurd hr (by simp)
                | ok st3 =>
                  rw [hint] at hr
                  simp only [] at hr
                  cases hsub : subFrameLoop ops hdr.numverts hdr.numtris tridx
                      hdr.scale hdr.scale_origin i
                      (toSigned32 (leVal (g.take 4))).toNat 0 st3 with
                  | error e =>
                    rw [hsub, step_error] at hr
                    exact absurd hr (by simp)
                  | ok q2 =>
                    obtain ⟨outs1, st4⟩ := q2
                    rw [hsub, step_ok] at hr
                    cases hrec : frameLoopGo ops hdr tridx fuel st4
                        (i + (1 + toSigned32 (leVal (g.take 4)))) with
                    | error e =>
                      rw [hrec] at hr
                      exact absurd hr (by simp)
                    | ok r =>
                      obtain ⟨outs2, st5, fin2⟩ := r
                      rw [hrec] at hr
                      simp only [Except.ok.injEq, Prod.mk.injEq] at hr
                      have hb := ih st4 (i + (1 + toSigned32 (leVal (g.take 4))))
                        outs2 st5 fin2 hrec
                      omega
          · rw [if_neg h0, if_neg h1] at hr
            exact absurd hr (by simp)
    · rw [if_neg hi] at hr
      simp only [Except.ok.injEq, Prod.mk.injEq] at hr
      omega

/-- Claim C8: when a frame entry's discriminator is 1 (a group) and its
12-byte group header declares a sub-frame count outside 1..10000, the
loop fails with the suspicious-count condition immediately — before any
interval float is read and before the per-sub-frame loop, regardless of
what bytes follow the group header; for counts in 1..10000 the check
passes and the loop proceeds to read the interval floats and the
sub-frames. -/
theorem group_count_suspicious_check {F : Type} (ops : FloatOps F)
    (hdr : MdlHeader F) (tridx : List DTriangle) (fuel : Nat)
    (st st1 st2 : RState) (i : Int) (g : List Nat) (c : Int)
    (hi : i < hdr.numframes)
    (ht : ReadLittleLong st = .ok (1, st1))
    (hg : SafeRead st1 12 = .ok (g, st2))
    (hc : c = toSigned32 (leVal (g.take 4))) :
    ((c ≤ 0 ∨ 10000 < c) →
      frameLoopGo ops hdr tridx (fuel + 1) st i =
        .error (.suspiciousCount c)) ∧
    (1 ≤ c → c ≤ 10000 →
      frameLoopGo ops hdr tridx (fuel + 1) st i =
        (match readIntervals ops c.toNat st2 with
         | .error e => .error e
         | .ok st3 =>
           step (subFrameLoop ops hdr.numverts hdr.numtris tridx hdr.scale
                 hdr.scale_origin i c.toNat 0 st3) fun outs1 st4 =>
           match frameLoopGo ops hdr tridx fuel st4 (i + (1 + c)) with
           | .error e => .error e
           | .ok (outs2, st5, fin) => .ok (outs1 ++ outs2, st5, fin))) := by
  subst hc
  constructor
  · intro hbad
    rw [frameLoopGo, if_pos hi, ht, step_ok, if_neg (by decide : ¬(1 : Int) = 0),
      if_pos rfl, hg, step_ok]
    simp only []
    rw [if_pos hbad]
  · intro hc1 hc2
    rw [frameLoopGo, if_pos hi, ht, step_ok, if_neg (by decide : ¬(1 : Int) = 0),
      if_pos rfl, hg, step_ok]
    simp only []
    rw [if_neg (by omega)]

theorem group_count_suspicious_check_witness :
    frameLoopGo unitOps cexHdr [] 1
      ⟨le32 1 ++ (le32 0 ++ List.replicate 8 0), 0⟩ 0 =
      .error (.suspiciousCount 0) :=
  (group_count_suspicious_check unitOps cexHdr [] 0
    ⟨le32 1 ++ (le32 0 ++ List.replicate 8 0), 0⟩
    ⟨le32 0 ++ List.replicate 8 0, 4⟩ ⟨[], 16⟩ 0
    (le32 0 ++ List.replicate 8 0) 0 (by decide) (by rfl) (by rfl) (by rfl)).1
    (by decide)

/-- Claim C2 (amended): the frame loop's counter advances by exactly 1
for a single-frame entry and by exactly 1 + count for a group entry, and
at loop termination the counter is greater than or equal to
header.numframes — but not necessarily equal: the loop condition is
`i < numframes` and no equality is checked, so a group whose
1 + sub-frame count advance overshoots terminates the loop with a
strictly larger counter (see the counterexample). -/
theorem frame_counter_advancement {F : Type} (ops : FloatOps F)
    (hdr : MdlHeader F) (tridx : List DTriangle) :
    (∀ (fuel : Nat) (st st1 st2 : RState) (i : Int) (out : Output),
      i < hdr.numframes →
      ReadLittleLong st = .ok (0, st1) →
      readSingleFrame ops hdr.numverts hdr.numtris tridx hdr.scale
        hdr.scale_origin i none st1 = .ok (out, st2) →
      frameLoopGo ops hdr tridx (fuel + 1) st i =
        (match frameLoopGo ops hdr tridx fuel st2 (i + 1) with
         | .error e => .error e
         | .ok (outs, st3, fin) => .ok (out :: outs, st3, fin))) ∧
    (∀ (fuel : Nat) (st st1 st2 st3 : RState) (i c : Int) (g : List Nat),
      i < hdr.numframes →
      ReadLittleLong st = .ok (1, st1) →
      SafeRead st1 12 = .ok (g, st2) →
      c = toSigned32 (leVal (g.take 4)) →
      1 ≤ c → c ≤ 10000 →
      readIntervals ops c.toNat st2 = .ok st3 →
      frameLoopGo ops hdr tridx (fuel + 1) st i =
        (step (subFrameLoop ops hdr.numverts hdr.numtris tridx hdr.scale
               hdr.scale_origin i c.toNat 0 st3) fun outs1 st4 =>
         match frameLoopGo ops hdr tridx fuel st4 (i + (1 + c)) with
         | .error e => .error e
         | .ok (outs2, st5, fin) => .ok (outs1 ++ outs2, st5, fin))) ∧
    (∀ (fuel : Nat) (st : RState) (i : Int) (outs : List Output) (st2 : RState)
      (fin : Int),
      frameLoopGo ops hdr tridx fuel st i = .ok (outs, st2, fin) →
      i ≤ fin ∧ hdr.numframes ≤ fin) := by
  refine ⟨?_, ?_, frameLoopGo_fin_bound ops hdr tridx⟩
  · intro fuel st st1 st2 i out hi ht hs
    rw [frameLoopGo, if_pos hi, ht, step_ok, if_pos rfl, hs, step_ok]
  · intro fuel st st1 st2 st3 i c g hi ht hg hc hc1 hc2 hint
    subst hc
    rw [frameLoopGo, if_pos hi, ht, step_ok, if_neg (by decide : ¬(1 : Int) = 0),
      if_pos rfl, hg, step_ok]
    simp only []
    rw [if_neg (by omega), hint]

theorem frame_counter_advancement_witness :
    frameLoopGo unitOps cexHdr [] 2 ⟨cexFrameBytes, 84⟩ 0 =
      .ok ([Output.tri 0 (some 0) (WriteTriFile unitOps [] 0),
            Output.tri 0 (some 1) (WriteTriFile unitOps [] 0)], ⟨[], 156⟩, 3) ∧
    (0 : Int) ≤ 3 ∧ cexHdr.numframes ≤ 3 := by
  have hrun : frameLoopGo unitOps cexHdr [] 2 ⟨cexFrameBytes, 84⟩ 0 =
      .ok ([Output.tri 0 (some 0) (WriteTriFile unitOps [] 0),
            Output.tri 0 (some 1) (WriteTriFile unitOps [] 0)], ⟨[], 156⟩, 3) :=
    rfl
  exact ⟨hrun, (frame_counter_advancement unitOps cexHdr []).2.2 2
    ⟨cexFrameBytes, 84⟩ 0 _ _ 3 hrun⟩

theorem ReadLittleLong_okL (rem : List Nat) (pos : Nat) (h : 4 ≤ rem.length) :
    ReadLittleLong ⟨rem, pos⟩ =
      .ok (toSigned32 (leVal (rem.take 4)), ⟨rem.drop 4, pos + 4⟩) :=
  ReadLittleLong_ok ⟨rem, pos⟩ h

theorem parseHeader_mk {F : Type} (ops : FloatOps F)
    (s0 s1 s2 o0 o1 o2 rad e0 e1 e2 syn4 fl4 sizeB : List Nat)
    (ns sw sh nv nt nf : Int) (rest : List Nat)
    (hs0 : s0.length = 4) (hs1 : s1.length = 4) (hs2 : s2.length = 4)
    (ho0 : o0.length = 4) (ho1 : o1.length = 4) (ho2 : o2.length = 4)
    (hrad : rad.length = 4)
    (he0 : e0.length = 4) (he1 : e1.length = 4) (he2 : e2.length = 4)
    (hsyn : syn4.length = 4) (hfl : fl4.length = 4) (hsz : sizeB.length = 4)
    (hns : -2147483648 ≤ ns ∧ ns < 2147483648)
    (hsw : -2147483648 ≤ sw ∧ sw < 2147483648)
    (hsh : -2147483648 ≤ sh ∧ sh < 2147483648)
    (hnv : -2147483648 ≤ nv ∧ nv < 2147483648)
    (hnt : -2147483648 ≤ nt ∧ nt < 2147483648)
    (hnf : -2147483648 ≤ nf ∧ nf < 2147483648) :
    parseHeader ops ⟨mkHeaderBytes s0 s1 s2 o0 o1 o2 rad e0 e1 e2
        ns sw sh nv nt nf syn4 fl4 sizeB ++ rest, 0⟩ =
      .ok (mkHdr ops s0 s1 s2 o0 o1 o2 rad e0 e1 e2 ns sw sh nv nt nf
        syn4 fl4 sizeB, ⟨rest, 84⟩) := by
  rw [parseHeader]
  simp only [mkHeaderBytes, List.append_assoc]
  rw [ReadLittleLong_le32 IDPOLYHEADER _ _ (by decide) (by decide), step_ok,
    ReadLittleLong_le32 ALIAS_VERSION _ _ (by decide) (by decide), step_ok,
    if_neg (by simp)]
  rw [ReadLittleFloat_append ops s0 _ _ hs0, step_ok,
    ReadLittleFloat_append ops s1 _ _ hs1, step_ok,
    ReadLittleFloat_append ops s2 _ _ hs2, step_ok,
    ReadLittleFloat_append ops o0 _ _ ho0, step_ok,
    ReadLittleFloat_append ops o1 _ _ ho1, step_ok,
    ReadLittleFloat_append ops o2 _ _ ho2, step_ok,
    ReadLittleFloat_append ops rad _ _ hrad, step_ok,
    ReadLittleFloat_append ops e0 _ _ he0, step_ok,
    ReadLittleFloat_append ops e1 _ _ he1, step_ok,
    ReadLittleFloat_append ops e2 _ _ he2, step_ok,
    ReadLittleLong_le32 ns _ _ hns.1 hns.2, step_ok,
    ReadLittleLong_le32 sw _ _ hsw.1 hsw.2, step_ok,
    ReadLittleLong_le32 sh _ _ hsh.1 hsh.2, step_ok,
    ReadLittleLong_le32 nv _ _ hnv.1 hnv.2, step_ok,
    ReadLittleLong_le32 nt _ _ hnt.1 hnt.2, step_ok,
    ReadLittleLong_le32 nf _ _ hnf.1 hnf.2, step_ok,
    ReadLittleLong_append syn4 _ _ hsyn, step_ok,
    ReadLittleLong_append fl4 _ _ hfl, step_ok,
    ReadLittleFloat_append ops sizeB _ _ hsz, step_ok]
  simp only [mkHdr]

theorem skinLoop_section (pal : List Nat) (w h : Int) (hw : 0 ≤ w)
    (hh : 0 ≤ h) :
    ∀ (ts ps : List (List Nat)) (idx : Nat) (rest : List Nat) (pos : Nat),
      ts.length = ps.length →
      (∀ t ∈ ts, t.length = 4) →
      (∀ p ∈ ps, p.length = (w * h).toNat) →
      skinLoop pal w h ts.length idx ⟨skinSection ts ps ++ rest, pos⟩ =
        .ok (skinOuts pal w h ps idx,
             ⟨rest, pos + ts.length * (4 + (w * h).toNat)⟩)
  | [], [], idx, rest, pos, _, _, _ => by
    simp [skinLoop, skinSection, skinOuts]
  | [], _ :: _, _, _, _, hlen, _, _ => by simp at hlen
  | _ :: _, [], _, _, _, hlen, _, _ => by simp at hlen
  | t :: ts, p :: ps, idx, rest, pos, hlen, h4, hwh => by
    have ht4 : t.length = 4 := h4 t (by simp)
    have hp : p.length = (w * h).toNat := hwh p (by simp)
    have hwh0 : 0 ≤ w * h := mul_nonneg hw hh
    have hrec := skinLoop_section pal w h hw hh ts ps (idx + 1) rest
      (pos + 4 + (w * h).toNat) (by simpa using hlen)
      (fun x hx => h4 x (List.mem_cons_of_mem t hx))
      (fun x hx => hwh x (List.mem_cons_of_mem p hx))
    rw [List.length_cons]
    simp only [skinLoop]
    rw [show skinSection (t :: ts) (p :: ps) ++ rest =
        t ++ (p ++ (skinSection ts ps ++ rest)) from by
      simp [skinSection, List.append_assoc]]
    rw [ReadLittleLong_append t _ _ ht4, step_ok]
    rw [SafeRead_append p _ _ (w * h) hwh0 hp, step_ok]
    rw [hrec, step_ok]
    simp only [skinOuts, Except.ok.injEq, Prod.mk.injEq, RState.mk.injEq,
      List.cons.injEq, true_and, and_true]
    ring

theorem stvertLoop_consumes :
    ∀ (n : Nat) (sv rest : List Nat) (pos : Nat), sv.length = 12 * n →
      ∃ vs, stvertLoop n ⟨sv ++ rest, pos⟩ = .ok (vs, ⟨rest, pos + 12 * n⟩)
  | 0, sv, rest, pos, hlen => by
    have hsv : sv = [] := List.eq_nil_of_length_eq_zero (by omega)
    subst hsv
    exact ⟨[], by simp [stvertLoop]⟩
  | n + 1, sv, rest, pos, hlen => by
    obtain ⟨vs, hvs⟩ := stvertLoop_consumes n (((sv.drop 4).drop 4).drop 4) rest
      (pos + 4 + 4 + 4) (by simp; omega)
    refine ⟨⟨toSigned32 (leVal (sv.take 4)),
             toSigned32 (leVal ((sv.drop 4).take 4)),
             toSigned32 (leVal (((sv.drop 4).drop 4).take 4))⟩ :: vs, ?_⟩
    simp only [stvertLoop]
    rw [ReadLittleLong_okL (sv ++ rest) pos (by simp; omega), step_ok]
    rw [List.take_append_of_le_length (by omega),
      List.drop_append_of_le_length (by omega)]
    rw [ReadLittleLong_okL (sv.drop 4 ++ rest) (pos + 4) (by simp; omega),
      step_ok]
    rw [List.take_append_of_le_length (by simp; omega),
      List.drop_append_of_le_length (by simp; omega)]
    rw [ReadLittleLong_okL ((sv.drop 4).drop 4 ++ rest) (pos + 4 + 4)
      (by simp; omega), step_ok]
    rw [List.take_append_of_le_length (by simp; omega),
      List.drop_append_of_le_length (by simp; omega)]
    rw [hvs, step_ok]
    simp only [Except.ok.injEq, Prod.mk.injEq, RState.mk.injEq,
      List.cons.injEq, true_and, and_true, StVert.mk.injEq]
    omega

theorem triIdxLoop_consumes :
    ∀ (n : Nat) (tb rest : List Nat) (pos : Nat), tb.length = 16 * n →
      ∃ tridx, triIdxLoop n ⟨tb ++ rest, pos⟩ = .ok (tridx, ⟨rest, pos + 16 * n⟩)
  | 0, tb, rest, pos, hlen => by
    have htb : tb = [] := List.eq_nil_of_length_eq_zero (by omega)
    subst htb
    exact ⟨[], by simp [triIdxLoop]⟩
  | n + 1, tb, rest, pos, hlen => by
    obtain ⟨tridx, hti⟩ := triIdxLoop_consumes n
      ((((tb.drop 4).drop 4).drop 4).drop 4) rest (pos + 4 + 4 + 4 + 4)
      (by simp; omega)
    refine ⟨⟨toSigned32 (leVal (tb.take 4)),
             toSigned32 (leVal ((tb.drop 4).take 4)),
             toSigned32 (leVal (((tb.drop 4).drop 4).take 4)),
             toSigned32 (leVal ((((tb.drop 4).drop 4).drop 4).take 4))⟩ ::
           tridx, ?_⟩
    simp only [triIdxLoop]
    rw [ReadLittleLong_okL (tb ++ rest) pos (by simp; omega), step_ok]
    rw [List.take_append_of_le_length (by omega),
      List.drop_append_of_le_length (by omega)]
    rw [ReadLittleLong_okL (tb.drop 4 ++ rest) (pos + 4) (by simp; omega),
      step_ok]
    rw [List.take_append_of_le_length (by simp; omega),
      List.drop_append_of_le_length (by simp; omega)]
    rw [ReadLittleLong_okL ((tb.drop 4).drop 4 ++ rest) (pos + 4 + 4)
      (by simp; omega), step_ok]
    rw [List.take_append_of_le_length (by simp; omega),
      List.drop_append_of_le_length (by simp; omega)]
    rw [ReadLittleLong_okL (((tb.drop 4).drop 4).drop 4 ++ rest)
      (pos + 4 + 4 + 4) (by simp; omega), step_ok]
    rw [List.take_append_of_le_length (by simp; omega),
      List.drop_append_of_le_length (by simp; omega)]
    rw [hti, step_ok]
    simp only [Except.ok.injEq, Prod.mk.injEq, RState.mk.injEq,
      List.cons.injEq, true_and, and_true, DTriangle.mk.injEq]
    omega

theorem decode_sections {F : Type} (ops : FloatOps F) (pal : List Nat)
    (s0 s1 s2 o0 o1 o2 rad e0 e1 e2 syn4 fl4 sizeB : List Nat)
    (ns sw sh nv nt nf : Int) (ts ps : List (List Nat)) (sv tb R : List Nat)
    (hs0 : s0.length = 4) (hs1 : s1.length = 4) (hs2 : s2.length = 4)
    (ho0 : o0.length = 4) (ho1 : o1.length = 4) (ho2 : o2.length = 4)
    (hrad : rad.length = 4)
    (he0 : e0.length = 4) (he1 : e1.length = 4) (he2 : e2.length = 4)
    (hsyn : syn4.length = 4) (hfl : fl4.length = 4) (hsz : sizeB.length = 4)
    (hns : 0 ≤ ns ∧ ns < 2147483648)
    (hsw : 0 ≤ sw ∧ sw < 2147483648)
    (hsh : 0 ≤ sh ∧ sh < 2147483648)
    (hnv : 0 ≤ nv ∧ nv < 2147483648)
    (hnt : 0 ≤ nt ∧ nt < 2147483648)
    (hnf : -2147483648 ≤ nf ∧ nf < 2147483648)
    (hts : ts.length = ns.toNat) (hps : ps.length = ns.toNat)
    (ht4 : ∀ t ∈ ts, t.length = 4)
    (hpwh : ∀ p ∈ ps, p.length = (sw * sh).toNat)
    (hsv : sv.length = 12 * nv.toNat) :
    ∃ sts : List StVert,
      decode ops pal (mkHeaderBytes s0 s1 s2 o0 o1 o2 rad e0 e1 e2
          ns sw sh nv nt nf syn4 fl4 sizeB ++
        (skinSection ts ps ++ (sv ++ (tb ++ R)))) =
      step (triIdxLoop nt.toNat
          ⟨tb ++ R, 84 + ts.length * (4 + (sw * sh).toNat) + 12 * nv.toNat⟩)
        fun tridx st4 =>
          match frameLoopGo ops (mkHdr ops s0 s1 s2 o0 o1 o2 rad e0 e1 e2
              ns sw sh nv nt nf syn4 fl4 sizeB) tridx nf.toNat st4 0 with
          | .error e => .error e
          | .ok (fOuts, _st5, fin) =>
            .ok ⟨mkHdr ops s0 s1 s2 o0 o1 o2 rad e0 e1 e2 ns sw sh nv nt nf
                  syn4 fl4 sizeB, sts, tridx,
                 skinOuts pal sw sh ps 0 ++ fOuts, fin⟩ := by
  obtain ⟨vs, hvs⟩ := stvertLoop_consumes nv.toNat sv (tb ++ R)
    (84 + ts.length * (4 + (sw * sh).toNat)) hsv
  refine ⟨vs, ?_⟩
  rw [decode, parseHeader_mk ops s0 s1 s2 o0 o1 o2 rad e0 e1 e2 syn4 fl4 sizeB
    ns sw sh nv nt nf (skinSection ts ps ++ (sv ++ (tb ++ R)))
    hs0 hs1 hs2 ho0 ho1 ho2 hrad he0 he1 he2 hsyn hfl hsz
    ⟨by omega, hns.2⟩ ⟨by omega, hsw.2⟩ ⟨by omega, hsh.2⟩
    ⟨by omega, hnv.2⟩ ⟨by omega, hnt.2⟩ hnf]
  simp only [step_ok, mkHdr]
  rw [← hts]
  rw [skinLoop_section pal sw sh hsw.1 hsh.1 ts ps 0 (sv ++ (tb ++ R)) 84
    (hts.trans hps.symm) ht4 hpwh]
  simp only [step_ok]
  rw [hvs]
  simp only [step_ok]

theorem skinOuts_no_tri (pal : List Nat) (w h : Int) :
    ∀ (ps : List (List Nat)) (idx : Nat) (i : Int) (s : Option Nat)
      (b : List Nat), Output.tri i s b ∉ skinOuts pal w h ps idx
  | [], _, _, _, _ => by simp [skinOuts]
  | p :: ps, idx, i, s, b => by
    intro hmem
    rcases List.mem_cons.mp hmem with hhead | htail
    · exact absurd hhead (by simp)
    · exact skinOuts_no_tri pal w h ps (idx + 1) i s b htail

/-- Claim C9: two inputs that differ only in the values of their skin
discriminator ints (`ts` vs `ts2`, 4 bytes each) and in the contents of
their texture-coordinate records (`sv` vs `sv2`, 12 bytes per vertex)
make the decoder consume the same number of bytes from each section and
produce the same output files, byte for byte (including the identical
raster and mesh bytes and identical name indices); any error outcome is
also identical. -/
theorem skin_stvert_noninterference {F : Type} (ops : FloatOps F)
    (pal : List Nat)
    (s0 s1 s2 o0 o1 o2 rad e0 e1 e2 syn4 fl4 sizeB : List Nat)
    (ns sw sh nv nt nf : Int) (ts ts2 ps : List (List Nat))
    (sv sv2 tb R : List Nat)
    (hs0 : s0.length = 4) (hs1 : s1.length = 4) (hs2 : s2.length = 4)
    (ho0 : o0.length = 4) (ho1 : o1.length = 4) (ho2 : o2.length = 4)
    (hrad : rad.length = 4)
    (he0 : e0.length = 4) (he1 : e1.length = 4) (he2 : e2.length = 4)
    (hsyn : syn4.length = 4) (hfl : fl4.length = 4) (hsz : sizeB.length = 4)
    (hns : 0 ≤ ns ∧ ns < 2147483648)
    (hsw : 0 ≤ sw ∧ sw < 2147483648)
    (hsh : 0 ≤ sh ∧ sh < 2147483648)
    (hnv : 0 ≤ nv ∧ nv < 2147483648)
    (hnt : 0 ≤ nt ∧ nt < 2147483648)
    (hnf : -2147483648 ≤ nf ∧ nf < 2147483648)
    (hts : ts.length = ns.toNat) (hts2 : ts2.length = ns.toNat)
    (hps : ps.length = ns.toNat)
    (ht4 : ∀ t ∈ ts, t.length = 4) (ht4b : ∀ t ∈ ts2, t.length = 4)
    (hpwh : ∀ p ∈ ps, p.length = (sw * sh).toNat)
    (hsv : sv.length = 12 * nv.toNat) (hsv2 : sv2.length = 12 * nv.toNat) :
    Except.map DecodeResult.outputs
      (decode ops pal (mkHeaderBytes s0 s1 s2 o0 o1 o2 rad e0 e1 e2
        ns sw sh nv nt nf syn4 fl4 sizeB ++
        (skinSection ts ps ++ (sv ++ (tb ++ R))))) =
    Except.map DecodeResult.outputs
      (decode ops pal (mkHeaderBytes s0 s1 s2 o0 o1 o2 rad e0 e1 e2
        ns sw sh nv nt nf syn4 fl4 sizeB ++
        (skinSection ts2 ps ++ (sv2 ++ (tb ++ R))))) := by
  obtain ⟨sts1, h1⟩ := decode_sections ops pal s0 s1 s2 o0 o1 o2 rad e0 e1 e2
    syn4 fl4 sizeB ns sw sh nv nt nf ts ps sv tb R
    hs0 hs1 hs2 ho0 ho1 ho2 hrad he0 he1 he2 hsyn hfl hsz
    hns hsw hsh hnv hnt hnf hts hps ht4 hpwh hsv
  obtain ⟨sts2, h2⟩ := decode_sections ops pal s0 s1 s2 o0 o1 o2 rad e0 e1 e2
    syn4 fl4 sizeB ns sw sh nv nt nf ts2 ps sv2 tb R
    hs0 hs1 hs2 ho0 ho1 ho2 hrad he0 he1 he2 hsyn hfl hsz
    hns hsw hsh hnv hnt hnf hts2 hps ht4b hpwh hsv2
  rw [hts] at h1
  rw [hts2] at h2
  rw [h1, h2]
  cases htri : triIdxLoop nt.toNat
      ⟨tb ++ R, 84 + ns.toNat * (4 + (sw * sh).toNat) + 12 * nv.toNat⟩ with
  | error e => rw [step_error, step_error]
  | ok q =>
    obtain ⟨tridx, st4⟩ := q
    rw [step_ok, step_ok]
    cases hfl2 : frameLoopGo ops (mkHdr ops s0 s1 s2 o0 o1 o2 rad e0 e1 e2
        ns sw sh nv nt nf syn4 fl4 sizeB) tridx nf.toNat st4 0 with
    | error e => rfl
    | ok r =>
      obtain ⟨fOuts, st5, fin⟩ := r
      rfl

/-- Claim C10: an input whose header passes the magic/version check and
declares a zero or negative frame count still decodes its skins and
topology, produces only the raster outputs (no mesh file at all), and
the decode finishes successfully with the frame counter at 0 instead of
reporting an error. -/
theorem zero_frames_success {F : Type} (ops : FloatOps F) (pal : List Nat)
    (s0 s1 s2 o0 o1 o2 rad e0 e1 e2 syn4 fl4 sizeB : List Nat)
    (ns sw sh nv nt nf : Int) (ts ps : List (List Nat)) (sv tb R : List Nat)
    (hs0 : s0.length = 4) (hs1 : s1.length = 4) (hs2 : s2.length = 4)
    (ho0 : o0.length = 4) (ho1 : o1.length = 4) (ho2 : o2.length = 4)
    (hrad : rad.length = 4)
    (he0 : e0.length = 4) (he1 : e1.length = 4) (he2 : e2.length = 4)
    (hsyn : syn4.length = 4) (hfl : fl4.length = 4) (hsz : sizeB.length = 4)
    (hns : 0 ≤ ns ∧ ns < 2147483648)
    (hsw : 0 ≤ sw ∧ sw < 2147483648)
    (hsh : 0 ≤ sh ∧ sh < 2147483648)
    (hnv : 0 ≤ nv ∧ nv < 2147483648)
    (hnt : 0 ≤ nt ∧ nt < 2147483648)
    (hnf : -2147483648 ≤ nf) (hnf0 : nf ≤ 0)
    (hts : ts.length = ns.toNat) (hps : ps.length = ns.toNat)
    (ht4 : ∀ t ∈ ts, t.length = 4)
    (hpwh : ∀ p ∈ ps, p.length = (sw * sh).toNat)
    (hsv : sv.length = 12 * nv.toNat) (htb : tb.length = 16 * nt.toNat) :
    ∃ r : DecodeResult F,
      decode ops pal (mkHeaderBytes s0 s1 s2 o0 o1 o2 rad e0 e1 e2
          ns sw sh nv nt nf syn4 fl4 sizeB ++
        (skinSection ts ps ++ (sv ++ (tb ++ R)))) = .ok r ∧
      r.outputs = skinOuts pal sw sh ps 0 ∧
      r.finalFrame = 0 ∧
      (∀ i s b, Output.tri i s b ∉ r.outputs) := by
  obtain ⟨sts, h1⟩ := decode_sections ops pal s0 s1 s2 o0 o1 o2 rad e0 e1 e2
    syn4 fl4 sizeB ns sw sh nv nt nf ts ps sv tb R
    hs0 hs1 hs2 ho0 ho1 ho2 hrad he0 he1 he2 hsyn hfl hsz
    hns hsw hsh hnv hnt ⟨hnf, by omega⟩ hts hps ht4 hpwh hsv
  obtain ⟨tridx, h2⟩ := triIdxLoop_consumes nt.toNat tb R
    (84 + ts.length * (4 + (sw * sh).toNat) + 12 * nv.toNat) htb
  rw [h2, step_ok] at h1
  have hnfz : nf.toNat = 0 := by omega
  rw [hnfz, frameLoopGo] at h1
  rw [if_neg (by simp only [mkHdr]; omega)] at h1
  simp only [] at h1
  refine ⟨_, h1, by simp, rfl, ?_⟩
  intro i s b hmem
  simp only [List.append_nil] at hmem
  exact skinOuts_no_tri pal sw sh ps 0 i s b hmem

theorem truncOnly_ok {α : Type} (a : α) :
    truncOnly (Except.ok a : Except Err α) := by
  intro e h
  exact absurd h (by simp)

theorem truncOnly_step {α β : Type} {r : Except Err (α × RState)}
    {k : α → RState → Except Err β} (hr : truncOnly r)
    (hk : ∀ a st, truncOnly (k a st)) : truncOnly (step r k) := by
  intro e h
  cases r with
  | error e2 =>
    rw [step_error] at h
    injection h with he
    subst he
    exact hr e2 rfl
  | ok p =>
    obtain ⟨x, st⟩ := p
    rw [step_ok] at h
    exact hk x st e h

theorem SafeRead_truncOnly (st : RState) (c : Int) :
    truncOnly (SafeRead st c) := by
  intro e h
  rw [SafeRead] at h
  split at h
  · exact absurd h (by simp)
  · injection h with he
    exact ⟨_, _, _, he.symm⟩

theorem ReadLittleLong_truncOnly (st : RState) :
    truncOnly (ReadLittleLong st) :=
  truncOnly_step (SafeRead_truncOnly st 4) fun _ _ => truncOnly_ok _

theorem ReadLittleFloat_truncOnly {F : Type} (ops : FloatOps F) (st : RState) :
    truncOnly (ReadLittleFloat ops st) :=
  truncOnly_step (SafeRead_truncOnly st 4) fun _ _ => truncOnly_ok _

theorem skinLoop_truncOnly (pal : List Nat) (w h : Int) :
    ∀ (k idx : Nat) (st : RState), truncOnly (skinLoop pal w h k idx st)
  | 0, _, _ => truncOnly_ok _
  | k + 1, idx, st =>
    truncOnly_step (ReadLittleLong_truncOnly st) fun _ st1 =>
    truncOnly_step (SafeRead_truncOnly st1 _) fun _ st2 =>
    truncOnly_step (skinLoop_truncOnly pal w h k (idx + 1) st2) fun _ _ =>
    truncOnly_ok _

theorem stvertLoop_truncOnly :
    ∀ (k : Nat) (st : RState), truncOnly (stvertLoop k st)
  | 0, _ => truncOnly_ok _
  | k + 1, st =>
    truncOnly_step (ReadLittleLong_truncOnly st) fun _ st1 =>
    truncOnly_step (ReadLittleLong_truncOnly st1) fun _ st2 =>
    truncOnly_step (ReadLittleLong_truncOnly st2) fun _ st3 =>
    truncOnly_step (stvertLoop_truncOnly k st3) fun _ _ =>
    truncOnly_ok _

theorem triIdxLoop_truncOnly :
    ∀ (k : Nat) (st : RState), truncOnly (triIdxLoop k st)
  | 0, _ => truncOnly_ok _
  | k + 1, st =>
    truncOnly_step (ReadLittleLong_truncOnly st) fun _ st1 =>
    truncOnly_step (ReadLittleLong_truncOnly st1) fun _ st2 =>
    truncOnly_step (ReadLittleLong_truncOnly st2) fun _ st3 =>
    truncOnly_step (ReadLittleLong_truncOnly st3) fun _ st4 =>
    truncOnly_step (triIdxLoop_truncOnly k st4) fun _ _ =>
    truncOnly_ok _

theorem readSingleFrame_truncOnly {F : Type} (ops : FloatOps F)
    (numverts numtris : Int) (tridx : List DTriangle) (scale origin : V3 F)
    (i : Int) (sub : Option Nat) (st : RState) :
    truncOnly (readSingleFrame ops numverts numtris tridx scale origin i sub
      st) :=
  truncOnly_step (SafeRead_truncOnly st 24) fun _ st1 =>
  truncOnly_step (SafeRead_truncOnly st1 _) fun _ _ =>
  truncOnly_ok _

theorem readIntervals_truncOnly {F : Type} (ops : FloatOps F) :
    ∀ (n : Nat) (st : RState), truncOnly (readIntervals ops n st)
  | 0, _ => truncOnly_ok _
  | n + 1, st =>
    truncOnly_step (ReadLittleFloat_truncOnly ops st) fun _ st1 =>
    readIntervals_truncOnly ops n st1

theorem subFrameLoop_truncOnly {F : Type} (ops : FloatOps F)
    (numverts numtris : Int) (tridx : List DTriangle) (scale origin : V3 F)
    (i : Int) :
    ∀ (k j : Nat) (st : RState),
      truncOnly (subFrameLoop ops numverts numtris tridx scale origin i k j st)
  | 0, _, _ => truncOnly_ok _
  | k + 1, j, st =>
    truncOnly_step
      (readSingleFrame_truncOnly ops numverts numtris tridx scale origin i
        (some j) st) fun _ st1 =>
    truncOnly_step
      (subFrameLoop_truncOnly ops numverts numtris tridx scale origin i k
        (j + 1) st1) fun _ _ =>
    truncOnly_ok _

theorem step_error_elim {α β : Type} {r : Except Err (α × RState)}
    {k : α → RState → Except Err β} {e : Err} (h : step r k = .error e) :
    r = .error e ∨ ∃ a st, r = .ok (a, st) ∧ k a st = .error e := by
  cases r with
  | error e2 =>
    rw [step_error] at h
    injection h with he
    subst he
    exact .inl rfl
  | ok p =>
    obtain ⟨x, st⟩ := p
    rw [step_ok] at h
    exact .inr ⟨x, st, rfl, h⟩

theorem frameLoopGo_err_shape {F : Type} (ops : FloatOps F) (hdr : MdlHeader F)
    (tridx : List DTriangle) :
    ∀ (fuel : Nat) (st : RState) (i : Int) (e : Err),
      frameLoopGo ops hdr tridx fuel st i = .error e →
      (∃ x y z, e = .truncated x y z) ∨ (∃ c, e = .suspiciousCount c) ∨
      (∃ t, e = .unknownFrameType t) ∨
      (e = .outOfFuel ∧ fuel < (hdr.numframes - i).toNat) := by
  intro fuel
  induction fuel with
  | zero =>
    intro st i e h
    rw [frameLoopGo] at h
    split at h
    case isTrue hi =>
      injection h with he
      refine .inr (.inr (.inr ⟨he.symm, ?_⟩))
      omega
    case isFalse hi => exact absurd h (by simp)
  | succ fuel ih =>
    intro st i e h
    rw [frameLoopGo] at h
    split at h
    case isFalse hi => exact absurd h (by simp)
    case isTrue hi =>
    rcases step_error_elim h with hrl | ⟨ftype, st1, hrl, h⟩
    · exact .inl (ReadLittleLong_truncOnly st e hrl)
    split at h
    · rcases step_error_elim h with hsf | ⟨out, st2, hsf, h⟩
      · exact .inl (readSingleFrame_truncOnly ops hdr.numverts hdr.numtris
          tridx hdr.scale hdr.scale_origin i none st1 e hsf)
      · cases hrec : frameLoopGo ops hdr tridx fuel st2 (i + 1) with
        | error e2 =>
          rw [hrec] at h
          simp only [] at h
          injection h with he
          subst he
          rcases ih st2 (i + 1) _ hrec with h1 | h2 | h3 | ⟨h4, h5⟩
          · exact .inl h1
          · exact .inr (.inl h2)
          · exact .inr (.inr (.inl h3))
          · exact .inr (.inr (.inr ⟨h4, by omega⟩))
        | ok r =>
          obtain ⟨o1, o2, o3⟩ := r
          rw [hrec] at h
          simp only [] at h
          exact absurd h (by simp)
    · split at h
      · rcases step_error_elim h with hg | ⟨g, st2, hg, h⟩
        · exact .inl (SafeRead_truncOnly st1 12 e hg)
        · simp only [] at h
          split at h
          case isTrue hsusp =>
            injection h with he
            exact .inr (.inl ⟨_, he.symm⟩)
          case isFalse hsusp =>
            cases hint : readIntervals ops
                (toSigned32 (leVal (g.take 4))).toNat st2 with
            | error e2 =>
              rw [hint] at h
              simp only [] at h
              injection h with he
              subst he
              exact .inl (readIntervals_truncOnly ops _ st2 _ hint)
            | ok st3 =>
              rw [hint] at h
              simp only [] at h
              rcases step_error_elim h with hsub | ⟨outs1, st4, hsub, h⟩
              · exact .inl (subFrameLoop_truncOnly ops hdr.numverts hdr.numtris
                  tridx hdr.scale hdr.scale_origin i _ 0 st3 e hsub)
              · cases hrec : frameLoopGo ops hdr tridx fuel st4
                    (i + (1 + toSigned32 (leVal (g.take 4)))) with
                | error e2 =>
                  rw [hrec] at h
                  simp only [] at h
                  injection h with he
                  subst he
                  rcases ih st4 _ _ hrec with h1 | h2 | h3 | ⟨h4, h5⟩
                  · exact .inl h1
                  · exact .inr (.inl h2)
                  · exact .inr (.inr (.inl h3))
                  · refine .inr (.inr (.inr ⟨h4, ?_⟩))
                    push_neg at hsusp
                    omega
                | ok r =>
                  obtain ⟨o1, o2, o3⟩ := r
                  rw [hrec] at h
                  simp only [] at h
                  exact absurd h (by simp)
      · injection h with he
        exact .inr (.inr (.inl ⟨_, he.symm⟩))

theorem frameLoopGo_notInvalid {F : Type} (ops : FloatOps F)
    (hdr : MdlHeader F) (tridx : List DTriangle) (fuel : Nat) (st : RState)
    (i : Int) : notInvalid (frameLoopGo ops hdr tridx fuel st i) := by
  intro a b h
  rcases frameLoopGo_err_shape ops hdr tridx fuel st i _ h with
    ⟨x, y, z, hz⟩ | ⟨c, hz⟩ | ⟨t, hz⟩ | ⟨hz, _⟩ <;> exact absurd hz (by simp)

/-- The fuel guard is unreachable whenever the fuel is at least the
number of loop iterations left, in particular at the
`numframes.toNat` fuel `decode` supplies (see `decode_no_outOfFuel`):
the loop's counter grows by at least 1 per iteration. -/
theorem frameLoopGo_no_outOfFuel {F : Type} (ops : FloatOps F)
    (hdr : MdlHeader F) (tridx : List DTriangle) (fuel : Nat) (st : RState)
    (i : Int) (hf : (hdr.numframes - i).toNat ≤ fuel) :
    frameLoopGo ops hdr tridx fuel st i ≠ .error .outOfFuel := by
  intro h
  rcases frameLoopGo_err_shape ops hdr tridx fuel st i _ h with
    ⟨x, y, z, hz⟩ | ⟨c, hz⟩ | ⟨t, hz⟩ | ⟨_, h4⟩
  · exact absurd hz (by simp)
  · exact absurd hz (by simp)
  · exact absurd hz (by simp)
  · omega

theorem truncOnly_notInvalid {α : Type} {r : Except Err α}
    (hr : truncOnly r) : notInvalid r := by
  intro a b h
  obtain ⟨x, y, z, hz⟩ := hr _ h
  exact absurd hz (by simp)

theorem parseHeader_err_shape {F : Type} (ops : FloatOps F) (st : RState) :
    ∀ e, parseHeader ops st = .error e →
      (∃ x y z, e = .truncated x y z) ∨ ∃ a b, e = .invalidFormat a b := by
  intro e h
  rw [parseHeader] at h
  rcases step_error_elim h with h1 | ⟨ident, st1, _, h⟩
  · exact .inl (ReadLittleLong_truncOnly st e h1)
  rcases step_error_elim h with h1 | ⟨version, st2, _, h⟩
  · exact .inl (ReadLittleLong_truncOnly st1 e h1)
  split at h
  · injection h with he
    exact .inr ⟨_, _, he.symm⟩
  · rcases step_error_elim h with h1 | ⟨_, st3, _, h⟩
    · exact .inl (ReadLittleFloat_truncOnly ops st2 e h1)
    rcases step_error_elim h with h1 | ⟨_, st4, _, h⟩
    · exact .inl (ReadLittleFloat_truncOnly ops st3 e h1)
    rcases step_error_elim h with h1 | ⟨_, st5, _, h⟩
    · exact .inl (ReadLittleFloat_truncOnly ops st4 e h1)
    rcases step_error_elim h with h1 | ⟨_, st6, _, h⟩
    · exact .inl (ReadLittleFloat_truncOnly ops st5 e h1)
    rcases step_error_elim h with h1 | ⟨_, st7, _, h⟩
    · exact .inl (ReadLittleFloat_truncOnly ops st6 e h1)
    rcases step_error_elim h with h1 | ⟨_, st8, _, h⟩
    · exact .inl (ReadLittleFloat_truncOnly ops st7 e h1)
    rcases step_error_elim h with h1 | ⟨_, st9, _, h⟩
    · exact .inl (ReadLittleFloat_truncOnly ops st8 e h1)
    rcases step_error_elim h with h1 | ⟨_, st10, _, h⟩
    · exact .inl (ReadLittleFloat_truncOnly ops st9 e h1)
    rcases step_error_elim h with h1 | ⟨_, st11, _, h⟩
    · exact .inl (ReadLittleFloat_truncOnly ops st10 e h1)
    rcases step_error_elim h with h1 | ⟨_, st12, _, h⟩
    · exact .inl (ReadLittleFloat_truncOnly ops st11 e h1)
    rcases step_error_elim h with h1 | ⟨_, st13, _, h⟩
    · exact .inl (ReadLittleLong_truncOnly st12 e h1)
    rcases step_error_elim h with h1 | ⟨_, st14, _, h⟩
    · exact .inl (ReadLittleLong_truncOnly st13 e h1)
    rcases step_error_elim h with h1 | ⟨_, st15, _, h⟩
    · exact .inl (ReadLittleLong_truncOnly st14 e h1)
    rcases step_error_elim h with h1 | ⟨_, st16, _, h⟩
    · exact .inl (ReadLittleLong_truncOnly st15 e h1)
    rcases step_error_elim h with h1 | ⟨_, st17, _, h⟩
    · exact .inl (ReadLittleLong_truncOnly st16 e h1)
    rcases step_error_elim h with h1 | ⟨_, st18, _, h⟩
    · exact .inl (ReadLittleLong_truncOnly st17 e h1)
    rcases step_error_elim h with h1 | ⟨_, st19, _, h⟩
    · exact .inl (ReadLittleLong_truncOnly st18 e h1)
    rcases step_error_elim h with h1 | ⟨_, st20, _, h⟩
    · exact .inl (ReadLittleLong_truncOnly st19 e h1)
    rcases step_error_elim h with h1 | ⟨_, st21, _, h⟩
    · exact .inl (ReadLittleFloat_truncOnly ops st20 e h1)
    exact absurd h (by simp)

theorem parseHeader_truncOnly_of_match {F : Type} (ops : FloatOps F)
    (input : List Nat) (hlen : 8 ≤ input.length)
    (hm : toSigned32 (leVal (input.take 4)) = IDPOLYHEADER)
    (hv : toSigned32 (leVal ((input.drop 4).take 4)) = ALIAS_VERSION) :
    truncOnly (parseHeader ops ⟨input, 0⟩) := by
  rw [parseHeader, ReadLittleLong_okL input 0 (by omega), step_ok,
    ReadLittleLong_okL (input.drop 4) (0 + 4) (by simp; omega), step_ok,
    hm, hv, if_neg (by simp)]
  refine truncOnly_step (ReadLittleFloat_truncOnly ops _) fun _ _ => ?_
  refine truncOnly_step (ReadLittleFloat_truncOnly ops _) fun _ _ => ?_
  refine truncOnly_step (ReadLittleFloat_truncOnly ops _) fun _ _ => ?_
  refine truncOnly_step (ReadLittleFloat_truncOnly ops _) fun _ _ => ?_
  refine truncOnly_step (ReadLittleFloat_truncOnly ops _) fun _ _ => ?_
  refine truncOnly_step (ReadLittleFloat_truncOnly ops _) fun _ _ => ?_
  refine truncOnly_step (ReadLittleFloat_truncOnly ops _) fun _ _ => ?_
  refine truncOnly_step (ReadLittleFloat_truncOnly ops _) fun _ _ => ?_
  refine truncOnly_step (ReadLittleFloat_truncOnly ops _) fun _ _ => ?_
  refine truncOnly_step (ReadLittleFloat_truncOnly ops _) fun _ _ => ?_
  refine truncOnly_step (ReadLittleLong_truncOnly _) fun _ _ => ?_
  refine truncOnly_step (ReadLittleLong_truncOnly _) fun _ _ => ?_
  refine truncOnly_step (ReadLittleLong_truncOnly _) fun _ _ => ?_
  refine truncOnly_step (ReadLittleLong_truncOnly _) fun _ _ => ?_
  refine truncOnly_step (ReadLittleLong_truncOnly _) fun _ _ => ?_
  refine truncOnly_step (ReadLittleLong_truncOnly _) fun _ _ => ?_
  refine truncOnly_step (ReadLittleLong_truncOnly _) fun _ _ => ?_
  refine truncOnly_step (ReadLittleLong_truncOnly _) fun _ _ => ?_
  refine truncOnly_step (ReadLittleFloat_truncOnly ops _) fun _ _ => ?_
  exact truncOnly_ok _

theorem decode_notInvalid_of_match {F : Type} (ops : FloatOps F)
    (pal input : List Nat) (hlen : 8 ≤ input.length)
    (hm : toSigned32 (leVal (input.take 4)) = IDPOLYHEADER)
    (hv : toSigned32 (leVal ((input.drop 4).take 4)) = ALIAS_VERSION) :
    notInvalid (decode ops pal input) := by
  intro a b h
  rw [decode] at h
  rcases step_error_elim h with h1 | ⟨hdr, st1, _, h⟩
  · exact truncOnly_notInvalid
      (parseHeader_truncOnly_of_match ops input hlen hm hv) a b h1
  rcases step_error_elim h with h1 | ⟨souts, st2, _, h⟩
  · exact truncOnly_notInvalid (skinLoop_truncOnly pal _ _ _ _ st1) a b h1
  rcases step_error_elim h with h1 | ⟨sts, st3, _, h⟩
  · exact truncOnly_notInvalid (stvertLoop_truncOnly _ st2) a b h1
  rcases step_error_elim h with h1 | ⟨tridx, st4, _, h⟩
  · exact truncOnly_notInvalid (triIdxLoop_truncOnly _ st3) a b h1
  cases hrec : frameLoopGo ops hdr tridx hdr.numframes.toNat st4 0 with
  | error e2 =>
    rw [hrec] at h
    simp only [] at h
    injection h with he
    exact frameLoopGo_notInvalid ops hdr tridx _ st4 0 a b
      (hrec.trans (by rw [he]))
  | ok r =>
    obtain ⟨fo, st5, fin⟩ := r
    rw [hrec] at h
    simp only [] at h
    exact absurd h (by simp)

/-- The embedding's fuel guard is unreachable in `decode`:
`numframes.toNat` fuel always suffices for the frame loop, so the
fuel-based model agrees with the C loop on every input. -/
theorem decode_no_outOfFuel {F : Type} (ops : FloatOps F)
    (pal input : List Nat) : decode ops pal input ≠ .error .outOfFuel := by
  intro h
  rw [decode] at h
  rcases step_error_elim h with h1 | ⟨hdr, st1, _, h⟩
  · rcases parseHeader_err_shape ops ⟨input, 0⟩ _ h1 with ⟨x, y, z, hz⟩ | ⟨a, b, hz⟩ <;>
      exact absurd hz (by simp)
  rcases step_error_elim h with h1 | ⟨souts, st2, _, h⟩
  · obtain ⟨x, y, z, hz⟩ := skinLoop_truncOnly pal _ _ _ _ st1 _ h1
    exact absurd hz (by simp)
  rcases step_error_elim h with h1 | ⟨sts, st3, _, h⟩
  · obtain ⟨x, y, z, hz⟩ := stvertLoop_truncOnly _ st2 _ h1
    exact absurd hz (by simp)
  rcases step_error_elim h with h1 | ⟨tridx, st4, _, h⟩
  · obtain ⟨x, y, z, hz⟩ := triIdxLoop_truncOnly _ st3 _ h1
    exact absurd hz (by simp)
  cases hrec : frameLoopGo ops hdr tridx hdr.numframes.toNat st4 0 with
  | error e2 =>
    rw [hrec] at h
    simp only [] at h
    injection h with he
    subst he
    exact frameLoopGo_no_outOfFuel ops hdr tridx _ st4 0 (by omega) hrec
  | ok r =>
    obtain ⟨fo, st5, fin⟩ := r
    rw [hrec] at h
    simp only [] at h
    exact absurd h (by simp)

/-- Claim C6: after the first 8 bytes (ident and version) have been
read, decoding fails with the header-validation condition carrying
exactly those two values if and only if the magic is not IDPO or the
version is not 6; no other part of the decoder can produce that
condition, so this is the only structural validation performed before
the counts are trusted, and it depends on nothing beyond those two
fields. -/
theorem header_validation_invalidFormat_iff {F : Type} (ops : FloatOps F)
    (pal input : List Nat) (m v : Int) (hlen : 8 ≤ input.length)
    (hm : m = toSigned32 (leVal (input.take 4)))
    (hv : v = toSigned32 (leVal ((input.drop 4).take 4))) :
    ((m ≠ IDPOLYHEADER ∨ v ≠ ALIAS_VERSION) →
      decode ops pal input = .error (.invalidFormat m v)) ∧
    (∀ a b, decode ops pal input = .error (.invalidFormat a b) →
      a = m ∧ b = v ∧ (m ≠ IDPOLYHEADER ∨ v ≠ ALIAS_VERSION)) := by
  subst hm hv
  have hfwd : (toSigned32 (leVal (input.take 4)) ≠ IDPOLYHEADER ∨
      toSigned32 (leVal ((input.drop 4).take 4)) ≠ ALIAS_VERSION) →
      decode ops pal input = .error
        (.invalidFormat (toSigned32 (leVal (input.take 4)))
          (toSigned32 (leVal ((input.drop 4).take 4)))) := by
    intro hbad
    rw [decode, parseHeader, ReadLittleLong_okL input 0 (by omega), step_ok,
      ReadLittleLong_okL (input.drop 4) (0 + 4) (by simp; omega), step_ok,
      if_pos hbad]
    rfl
  refine ⟨hfwd, ?_⟩
  intro a b hdec
  by_cases hbad : toSigned32 (leVal (input.take 4)) ≠ IDPOLYHEADER ∨
      toSigned32 (leVal ((input.drop 4).take 4)) ≠ ALIAS_VERSION
  · have h2 := (hdec.symm.trans (hfwd hbad))
    injection h2 with he
    injection he with he1 he2
    exact ⟨he1, he2, hbad⟩
  · push_neg at hbad
    exact absurd hdec
      (decode_notInvalid_of_match ops pal input hlen hbad.1 hbad.2 a b)

theorem header_validation_invalidFormat_iff_witness :
    decode unitOps [] (le32 0 ++ le32 6) = .error (.invalidFormat 0 6) :=
  (header_validation_invalidFormat_iff unitOps [] (le32 0 ++ le32 6) 0 6
    (by decide) (by decide) (by decide)).1 (by decide)

theorem skin_stvert_noninterference_witness :
    Except.map DecodeResult.outputs
      (decode unitOps [] (mkHeaderBytes z4 z4 z4 z4 z4 z4 z4 z4 z4 z4
        1 2 2 1 0 0 z4 z4 z4 ++
        (skinSection [[9, 9, 9, 9]] [[7, 7, 7, 7]] ++
          (List.replicate 12 5 ++ ([] ++ []))))) =
    Except.map DecodeResult.outputs
      (decode unitOps [] (mkHeaderBytes z4 z4 z4 z4 z4 z4 z4 z4 z4 z4
        1 2 2 1 0 0 z4 z4 z4 ++
        (skinSection [[1, 2, 3, 4]] [[7, 7, 7, 7]] ++
          (List.replicate 12 6 ++ ([] ++ []))))) :=
  skin_stvert_noninterference unitOps [] z4 z4 z4 z4 z4 z4 z4 z4 z4 z4 z4 z4 z4
    1 2 2 1 0 0 [[9, 9, 9, 9]] [[1, 2, 3, 4]] [[7, 7, 7, 7]]
    (List.replicate 12 5) (List.replicate 12 6) [] []
    (by decide) (by decide) (by decide) (by decide) (by decide) (by decide)
    (by decide) (by decide) (by decide) (by decide) (by decide) (by decide)
    (by decide) (by decide) (by decide) (by decide) (by decide) (by decide)
    (by decide) (by decide) (by decide) (by decide) (by decide) (by decide)
    (by decide) (by decide) (by decide)

theorem zero_frames_success_witness :
    ∃ r : DecodeResult Unit,
      decode unitOps [] (mkHeaderBytes z4 z4 z4 z4 z4 z4 z4 z4 z4 z4
          1 2 2 1 0 0 z4 z4 z4 ++
        (skinSection [[9, 9, 9, 9]] [[7, 7, 7, 7]] ++
          (List.replicate 12 5 ++ ([] ++ [])))) = .ok r ∧
      r.outputs = skinOuts [] 2 2 [[7, 7, 7, 7]] 0 ∧
      r.finalFrame = 0 ∧
      (∀ i s b, Output.tri i s b ∉ r.outputs) :=
  zero_frames_success unitOps [] z4 z4 z4 z4 z4 z4 z4 z4 z4 z4 z4 z4 z4
    1 2 2 1 0 0 [[9, 9, 9, 9]] [[7, 7, 7, 7]] (List.replicate 12 5) [] []
    (by decide) (by decide) (by decide) (by decide) (by decide) (by decide)
    (by decide) (by decide) (by decide) (by decide) (by decide) (by decide)
    (by decide) (by decide) (by decide) (by decide) (by decide) (by decide)
    (by decide) (by decide) (by decide) (by decide) (by decide) (by decide)
    (by decide) (by decide)

set_option maxRecDepth 40000 in
/-- Claim C2 counterexample: `cex2Input` declares numframes = 2 and
holds one group entry with 2 sub-frames; the decode succeeds, yet the
frame counter terminates at 0 + (1 + 2) = 3, which is strictly greater
than — not equal to — header.numframes = 2. -/
theorem frame_counter_termination_cex :
    ((decode unitOps [] cex2Input).toOption.map
      fun r => (r.header.numframes, r.finalFrame)) = some (2, 3) ∧
    (3 : Int) ≠ 2 := by
  decide

end MdlRev
